import Mathlib

/-!
# Verification of the `ha_nationalgrid` coordinator and statistics importer

Shallow embedding of `custom_components/national_grid/coordinator.py` and
`custom_components/national_grid/statistics.py`.

Modelling conventions:
* Python floats are modelled as `Rat` (exact arithmetic).
* Timestamps (`datetime.timestamp()`) are modelled as `Int` epoch seconds;
  truncation to the top of the hour (`dt.replace(minute=0, second=0,
  microsecond=0)`) is floor division by 3600.
* Calendar dates (`datetime.date`) are a `Date` structure; `date - timedelta(days=n)`
  is implemented with the standard proleptic-Gregorian civil-day conversion,
  exactly the arithmetic Python's `datetime` performs.
* A reading's `date` / `startTime` string is modelled as `Option Int`: `none`
  stands for both an empty string and an unparsable string.  In the Python code
  the empty-string check happens before the sign filters and the parse failure
  after them, but both produce a bare `continue` that leaves all state
  untouched, so folding them into one early test yields the same function.
* The external statistics store is a map from statistic id to the last stored
  row; an import run is described both by the list of rows it writes and by the
  list of store operations (reads / writes) it performs.
-/

namespace NationalGrid

/-! ## Time and calendar -/

/-- Epoch-second timestamp truncated to the top of its hour
(`dt.replace(minute=0, second=0, microsecond=0)` on a UTC datetime). -/
def hourFloor (t : Int) : Int := 3600 * Int.fdiv t 3600

/-- A proleptic-Gregorian calendar date, as `datetime.date`. -/
structure Date where
  year : Int
  month : Int
  day : Int
deriving DecidableEq, Repr

/-- Days since 1970-01-01 of a civil date (Howard Hinnant's `days_from_civil`,
the arithmetic underlying `datetime.date.toordinal`). -/
def daysFromCivil (dt : Date) : Int :=
  let y : Int := if dt.month ≤ 2 then dt.year - 1 else dt.year
  let era : Int := Int.fdiv y 400
  let yoe : Int := y - era * 400
  let mp : Int := Int.emod (dt.month + 9) 12
  let doy : Int := Int.fdiv (153 * mp + 2) 5 + dt.day - 1
  let doe : Int := yoe * 365 + Int.fdiv yoe 4 - Int.fdiv yoe 100 + doy
  era * 146097 + doe - 719468

/-- Civil date of a days-since-epoch count (Hinnant's `civil_from_days`). -/
def civilFromDays (z0 : Int) : Date :=
  let z : Int := z0 + 719468
  let era : Int := Int.fdiv z 146097
  let doe : Int := z - era * 146097
  let yoe : Int := Int.fdiv (doe - Int.fdiv doe 1460 + Int.fdiv doe 36524 - Int.fdiv doe 146096) 365
  let y : Int := yoe + era * 400
  let doy : Int := doe - (365 * yoe + Int.fdiv yoe 4 - Int.fdiv yoe 100)
  let mp : Int := Int.fdiv (5 * doy + 2) 153
  let d : Int := doy - Int.fdiv (153 * mp + 2) 5 + 1
  let m : Int := mp + (if mp < 10 then 3 else -9)
  ⟨y + (if m ≤ 2 then 1 else 0), m, d⟩

/-- `today - timedelta(days=n)`. -/
def dateSubDays (dt : Date) (n : Int) : Date := civilFromDays (daysFromCivil dt - n)

/-- The `YYYYMM` month code `d.year * 100 + d.month` used for usage queries. -/
def monthCode (d : Date) : Int := d.year * 100 + d.month

/-! ## `const.py` -/

/-- `DOMAIN = "national_grid"`. -/
def DOMAIN : String := "national_grid"

/-- Round half to even (Python's `round`), at integer precision. -/
def roundHalfEven (x : Rat) : Int :=
  let f : Int := ⌊x⌋
  let frac : Rat := x - f
  if frac < 1/2 then f
  else if 1/2 < frac then f + 1
  else if f % 2 = 0 then f else f + 1

/-- `therms_to_ccf`: `round(therms * 1.038, 2)`. -/
def therms_to_ccf (therms : Rat) : Rat :=
  (roundHalfEven (therms * (1038/1000) * 100) : Rat) / 100

/-! ## Readings and statistics rows -/

/-- An AMI hourly reading (`AmiEnergyUsage`): the parsed `date` field and the
signed `quantity` (positive consumption, negative return). -/
structure AmiReading where
  date : Option Int
  quantity : Rat
deriving DecidableEq, Repr

/-- A 15-minute interval read (`IntervalRead`): parsed `startTime` and signed
`value`. -/
structure IntervalRead where
  startTime : Option Int
  value : Rat
deriving DecidableEq, Repr

/-- A written statistics row (`StatisticData`): top-of-hour `start`, the
point's `state` value, and the cumulative `sum`. -/
structure StatisticData where
  start : Int
  state : Rat
  sum : Rat
deriving DecidableEq, Repr

/-- The last previously imported row of a series, as returned by
`get_last_statistics` (`sum` and `start`). -/
structure LastRow where
  sum : Rat
  start : Int
deriving DecidableEq, Repr

/-- The external statistics store, keyed by statistic id. -/
abbrev Store := String → Option LastRow

/-- `last_sum` / `last_ts` extraction: `0.0` when the series has no rows
(mirrors the `row.get(...) or 0.0` defaults). -/
def readLast (store : Store) (id : String) : Rat × Int :=
  match store id with
  | none => (0, 0)
  | some row => (row.sum, row.start)

/-- A store operation performed by an import run. -/
inductive StoreOp where
  | read (id : String)
  | write (id : String) (stats : List StatisticData)
deriving DecidableEq, Repr

/-! ## `_import_hourly_stats` -/

/-- The keyword arguments of `_import_hourly_stats` together with the values
obtained from the store and the wall clock inside the function body. -/
structure HourlyParams where
  isGas : Bool
  isFirstRefresh : Bool
  consumptionOnly : Bool
  returnOnly : Bool
  nowTs : Int
  lastTs : Int
  lastSum : Rat
deriving DecidableEq, Repr

/-- Statistic id chosen by `_import_hourly_stats`. -/
def hourlyStatId (sp : String) (isGas returnOnly : Bool) : String :=
  if isGas then DOMAIN ++ ":" ++ sp ++ "_gas_hourly_usage"
  else if returnOnly then DOMAIN ++ ":" ++ sp ++ "_electric_return_hourly_usage"
  else DOMAIN ++ ":" ++ sp ++ "_electric_hourly_usage"

/-- `quantity = abs(quantity)` for the return series. -/
def signAdjust (returnOnly : Bool) (q : Rat) : Rat :=
  if returnOnly then |q| else q

/-- `value = therms_to_ccf(quantity) if is_gas else quantity`, applied to the
sign-adjusted quantity. -/
def hourlyValue (p : HourlyParams) (q : Rat) : Rat :=
  if p.isGas then therms_to_ccf (signAdjust p.returnOnly q)
  else signAdjust p.returnOnly q

/-- The per-reading body of the `for reading in sorted_readings` loop: `none`
when the reading is skipped (missing/unparsable date, sign filter, an
already-imported timestamp, or the 48-hour cutoff), otherwise the pair
accumulated.  The checks appear in source order. -/
def hourlyEmit (p : HourlyParams) (r : AmiReading) : Option (Int × Rat) :=
  match r.date with
  | none => none
  | some ts =>
    if p.consumptionOnly && decide (r.quantity < 0) then none
    else if p.returnOnly && decide (0 ≤ r.quantity) then none
    else if decide (hourFloor ts ≤ p.lastTs) then none
    else if (!p.isFirstRefresh) && decide (hourFloor ts < p.nowTs - 172800) then none
    else some (hourFloor ts, hourlyValue p r.quantity)

/-- Shared accumulation step: `running_sum += value; stats.append(...)`. -/
def accumStep {α : Type} (f : α → Option (Int × Rat))
    (acc : Rat × List StatisticData) (x : α) : Rat × List StatisticData :=
  match f x with
  | none => acc
  | some (t, v) => (acc.1 + v, acc.2 ++ [⟨t, v, acc.1 + v⟩])

/-- Sort key of `sorted(readings, key=lambda r: str(r.get("date", "")))`:
missing dates sort first (empty string), valid ISO strings chronologically. -/
def dateLe : Option Int → Option Int → Bool
  | none, _ => true
  | some _, none => false
  | some a, some b => decide (a ≤ b)

/-- The rows built by `_import_hourly_stats` (everything between the store
read and the upsert).  Python's `sorted` is a stable sort by the date key;
`List.insertionSort` is a stable sort, hence produces the identical list. -/
def import_hourly_stats (p : HourlyParams) (readings : List AmiReading) :
    List StatisticData :=
  ((readings.insertionSort (fun r₁ r₂ => dateLe r₁.date r₂.date = true)).foldl
    (accumStep (hourlyEmit p)) (p.lastSum, [])).2

/-- The store operations of one `_import_hourly_stats` call: one
`get_last_statistics` read, then an `async_add_external_statistics` write
unless the row list is empty. -/
def import_hourly_stats_ops (store : Store) (nowTs : Int) (sp : String)
    (readings : List AmiReading) (isGas isFirst consOnly retOnly : Bool) :
    List StoreOp :=
  let id := hourlyStatId sp isGas retOnly
  let last := readLast store id
  let stats := import_hourly_stats
    ⟨isGas, isFirst, consOnly, retOnly, nowTs, last.2, last.1⟩ readings
  if stats = [] then [StoreOp.read id]
  else [StoreOp.read id, StoreOp.write id stats]

/-- `_import_hourly_stats_electric`: always import the consumption direction,
and import the return direction only when some reading is negative. -/
def import_hourly_stats_electric_ops (store : Store) (nowTs : Int) (sp : String)
    (readings : List AmiReading) (isFirst : Bool) : List StoreOp :=
  import_hourly_stats_ops store nowTs sp readings false isFirst true false
  ++ (if readings.any (fun r => decide (r.quantity < 0)) then
        import_hourly_stats_ops store nowTs sp readings false isFirst false true
      else [])

/-! ## `_import_interval_stats` -/

/-- Statistic id chosen by `_import_interval_stats`. -/
def intervalStatId (sp : String) (returnOnly : Bool) : String :=
  if returnOnly then DOMAIN ++ ":" ++ sp ++ "_electric_interval_return_usage"
  else DOMAIN ++ ":" ++ sp ++ "_electric_interval_usage"

/-- Sign filter applied while bucketing: `none` when the read is skipped,
otherwise the (absolute-valued, for the return series) contribution. -/
def intervalFilterValue (consOnly retOnly : Bool) (v : Rat) : Option Rat :=
  if consOnly && decide (v < 0) then none
  else if retOnly && decide (0 ≤ v) then none
  else some (if retOnly then |v| else v)

/-- `hourly_buckets[hour_start] = hourly_buckets.get(hour_start, 0.0) + value`
on an insertion-ordered association list (a Python dict). -/
def bucketInsert (l : List (Int × Rat)) (k : Int) (v : Rat) : List (Int × Rat) :=
  match l with
  | [] => [(k, v)]
  | (k', v') :: rest =>
    if k' = k then (k', v' + v) :: rest else (k', v') :: bucketInsert rest k v

/-- The per-read body of the bucketing loop of `_import_interval_stats`. -/
def intervalBucketStep (consOnly retOnly : Bool) (l : List (Int × Rat))
    (rd : IntervalRead) : List (Int × Rat) :=
  match rd.startTime with
  | none => l
  | some ts =>
    match intervalFilterValue consOnly retOnly rd.value with
    | none => l
    | some v => bucketInsert l (hourFloor ts) v

/-- The hour buckets of `_import_interval_stats`. -/
def intervalBuckets (consOnly retOnly : Bool) (reads : List IntervalRead) :
    List (Int × Rat) :=
  reads.foldl (intervalBucketStep consOnly retOnly) []

/-- Emission step of the `for hour_start in sorted(hourly_buckets)` loop. -/
def intervalEmit (lastTs : Int) (kv : Int × Rat) : Option (Int × Rat) :=
  if decide (kv.1 ≤ lastTs) then none else some kv

/-- The rows built by `_import_interval_stats`. -/
def import_interval_stats (consOnly retOnly : Bool) (lastTs : Int)
    (lastSum : Rat) (reads : List IntervalRead) : List StatisticData :=
  (((intervalBuckets consOnly retOnly reads).insertionSort
      (fun a b => a.1 ≤ b.1)).foldl
    (accumStep (intervalEmit lastTs)) (lastSum, [])).2

/-- The store operations of one `_import_interval_stats` call. -/
def import_interval_stats_ops (store : Store) (sp : String)
    (reads : List IntervalRead) (consOnly retOnly : Bool) : List StoreOp :=
  let id := intervalStatId sp retOnly
  let last := readLast store id
  let stats := import_interval_stats consOnly retOnly last.2 last.1 reads
  if stats = [] then [StoreOp.read id]
  else [StoreOp.read id, StoreOp.write id stats]

/-- `_import_interval_stats_electric`. -/
def import_interval_stats_electric_ops (store : Store) (sp : String)
    (reads : List IntervalRead) : List StoreOp :=
  import_interval_stats_ops store sp reads true false
  ++ (if reads.any (fun r => decide (r.value < 0)) then
        import_interval_stats_ops store sp reads false true
      else [])

/-! ## Specification-side helpers for the statistics claims -/

/-- Look up a bucket total (0 when the hour has no bucket). -/
def bucketTotal (l : List (Int × Rat)) (h : Int) : Rat :=
  match l with
  | [] => 0
  | (k, v) :: rest => if k = h then v else bucketTotal rest h

/-- The contribution of one read to the bucket of hour `h`. -/
def contribution (consOnly retOnly : Bool) (h : Int) (rd : IntervalRead) : Rat :=
  match rd.startTime with
  | none => 0
  | some ts =>
    match intervalFilterValue consOnly retOnly rd.value with
    | none => 0
    | some v => if hourFloor ts = h then v else 0

/-- `sumsFrom base rows`: each row's `sum` is the previous row's `sum`
(starting from `base`) plus its own `state`. -/
def sumsFrom (base : Rat) : List StatisticData → Prop
  | [] => True
  | s :: rest => s.sum = base + s.state ∧ sumsFrom s.sum rest

/-- The `sum` of the last row, `base` for an empty list. -/
def lastSumD (base : Rat) : List StatisticData → Rat
  | [] => base
  | s :: rest => lastSumD s.sum rest

/-- `True` iff the operation is a write. -/
def StoreOp.isWrite : StoreOp → Bool
  | .read _ => false
  | .write _ _ => true

/-- The statistic id an operation touches. -/
def StoreOp.id : StoreOp → String
  | .read i => i
  | .write i _ => i

/-! ## Coordinator: data model (`coordinator.py`) -/

/-- A meter node of a billing account. -/
structure Meter where
  servicePointNumber : String
  meterNumber : String
  meterPointNumber : String
  fuelType : String
  hasAmiSmartMeter : Bool
deriving DecidableEq, Repr

/-- A billing account; `meters` is `billing_account["meter"]["nodes"]`. -/
structure BillingAccount where
  region : String
  premiseNumber : String
  meters : List Meter
deriving DecidableEq, Repr

/-- `MeterData`. -/
structure MeterData where
  meter : Meter
  account_id : String
  billing_account : BillingAccount
deriving DecidableEq, Repr

/-- A monthly `EnergyUsage` record. -/
structure EnergyUsage where
  usageType : String
  usageYearMonth : Int
  usage : Rat
deriving DecidableEq, Repr

/-- A monthly `EnergyUsageCost` record. -/
structure EnergyUsageCost where
  fuelType : String
  month : Int
  cost : Rat
deriving DecidableEq, Repr

/-- A Python dict keyed by strings. -/
abbrev StrMap (α : Type) := String → Option α

/-- `d[k] = v`. -/
def strInsert {α : Type} (m : StrMap α) (k : String) (v : α) : StrMap α :=
  fun k' => if k' = k then some v else m k'

/-- `NationalGridCoordinatorData`. -/
structure NationalGridCoordinatorData where
  accounts : StrMap BillingAccount
  ami_usages : StrMap (List AmiReading)
  costs : StrMap (List EnergyUsageCost)
  interval_reads : StrMap (List IntervalRead)
  meters : StrMap MeterData
  usages : StrMap (List EnergyUsage)
  is_first_refresh : Bool

/-- `NationalGridCoordinatorData(accounts={})` with all defaults. -/
def emptyCoordinatorData : NationalGridCoordinatorData :=
  ⟨fun _ => none, fun _ => none, fun _ => none, fun _ => none,
    fun _ => none, fun _ => none, false⟩

/-- `_seed_from_previous`: shallow-copy every map of the previous snapshot
(`is_first_refresh` is left at its default `False` and set by the caller). -/
def seed_from_previous :
    Option NationalGridCoordinatorData → NationalGridCoordinatorData
  | none => emptyCoordinatorData
  | some prev => { prev with is_first_refresh := false }

/-! ## Coordinator: API client and exceptions -/

/-- The `aionatgrid` exception classes the coordinator distinguishes:
`InvalidAuthError`, `CannotConnectError`, `RetryExhaustedError`, any other
`NationalGridError`, and Python's builtin `ValueError`. -/
inductive ApiError where
  | invalidAuth
  | cannotConnect
  | retryExhausted
  | natGridOther
  | valueError
deriving DecidableEq, Repr

/-- The one exception-class fact the `except` clauses depend on that is not
visible in this repository: whether `InvalidAuthError` is a subclass of
`NationalGridError` in the external `aionatgrid` library.  It is kept as a
parameter of the model; note that the source's `except InvalidAuthError:
raise` placed *before* `except (..., NationalGridError)` in both
`_async_update_data` and `_fetch_all_data` is only meaningful when the
subclass relation holds. -/
structure ExcHierarchy where
  authSubNatGrid : Bool
deriving DecidableEq, Repr

/-- What `except (CannotConnectError, RetryExhaustedError, NationalGridError,
ValueError)` catches — the clause of `_fetch_usages` and `_fetch_costs`. -/
def usagesClauseCatches (h : ExcHierarchy) : ApiError → Bool
  | .invalidAuth => h.authSubNatGrid
  | _ => true

/-- What `except (CannotConnectError, RetryExhaustedError, NationalGridError)`
catches — the clauses inside `_fetch_ami_data` and the account loop. -/
def natTupleCatches (h : ExcHierarchy) : ApiError → Bool
  | .invalidAuth => h.authSubNatGrid
  | .valueError => false
  | _ => true

/-- The API client: each method either returns data or raises. -/
structure ApiEnv where
  get_billing_account : String → Except ApiError BillingAccount
  get_energy_usages : String → Int → Except ApiError (List EnergyUsage)
  get_energy_usage_costs :
    String → Date → String → Except ApiError (List EnergyUsageCost)
  get_ami_energy_usages :
    String → String → String → String → Date → Date →
      Except ApiError (List AmiReading)
  get_interval_reads : String → String → Int → Except ApiError (List IntervalRead)

/-- A request issued to the API, with the arguments the coordinator computed
(the interval start is the epoch second formatted into `start_datetime`). -/
inductive ApiReq where
  | billing (account_id : String)
  | usages (account_id : String) (from_month : Int)
  | costs (account_id : String) (query_date : Date) (company_code : String)
  | ami (meter_number premise_number service_point_number
      meter_point_number : String) (date_from date_to : Date)
  | interval (premise_number service_point_number : String) (start_ts : Int)
deriving DecidableEq, Repr

/-- The environment of one polling cycle. -/
structure Ctx where
  env : ApiEnv
  hier : ExcHierarchy

/-! ## Coordinator: fetch pipeline

Each fetch function returns the trace of API requests it issued together with
either the list of snapshot mutations it performed (in source order) or the
exception that escaped it.  Writes are applied only on success: in the Python
code a connectivity-class error reaching the account loop can only come from
`get_billing_account`, before any mutation, and when any other exception
escapes the loop the whole cycle's snapshot is discarded (`_async_update_data`
re-raises), so partial in-place mutations are never observable. -/

/-- One snapshot mutation. -/
inductive SnapWrite where
  | account (id : String) (ba : BillingAccount)
  | meterData (sp : String) (md : MeterData)
  | usages (id : String) (us : List EnergyUsage)
  | costs (id : String) (cs : List EnergyUsageCost)
  | ami (sp : String) (rs : List AmiReading)
  | interval (sp : String) (rs : List IntervalRead)
deriving DecidableEq, Repr

/-- Apply one mutation. -/
def applyWrite (d : NationalGridCoordinatorData) :
    SnapWrite → NationalGridCoordinatorData
  | .account i ba => { d with accounts := strInsert d.accounts i ba }
  | .meterData sp md => { d with meters := strInsert d.meters sp md }
  | .usages i us => { d with usages := strInsert d.usages i us }
  | .costs i cs => { d with costs := strInsert d.costs i cs }
  | .ami sp rs => { d with ami_usages := strInsert d.ami_usages sp rs }
  | .interval sp rs => { d with interval_reads := strInsert d.interval_reads sp rs }

/-- Apply mutations in order. -/
def applyWrites (d : NationalGridCoordinatorData) (ws : List SnapWrite) :
    NationalGridCoordinatorData :=
  ws.foldl applyWrite d

/-- The account id under which a write stores account-keyed data
(`accounts`, `usages`, `costs`). -/
def SnapWrite.accountKey : SnapWrite → Option String
  | .account i _ => some i
  | .usages i _ => some i
  | .costs i _ => some i
  | _ => none

/-- `_fetch_usages`: degrade to `[]` on any caught error. -/
def fetch_usages (c : Ctx) (account_id : String) (from_month : Int) :
    Except ApiError (List EnergyUsage) :=
  match c.env.get_energy_usages account_id from_month with
  | .ok us => .ok us
  | .error e => if usagesClauseCatches c.hier e then .ok [] else .error e

/-- `_fetch_costs`: return `[]` without a request when the region is empty,
degrade to `[]` on a caught error. -/
def fetch_costs (c : Ctx) (account_id : String) (today : Date)
    (ba : BillingAccount) : Except ApiError (List EnergyUsageCost) :=
  if ba.region = "" then .ok []
  else
    match c.env.get_energy_usage_costs account_id today ba.region with
    | .ok cs => .ok cs
    | .error e => if usagesClauseCatches c.hier e then .ok [] else .error e

/-- The requests `_fetch_costs` issues. -/
def costs_reqs (account_id : String) (today : Date) (ba : BillingAccount) :
    List ApiReq :=
  if ba.region = "" then [] else [ApiReq.costs account_id today ba.region]

/-- The interval-read section of `_fetch_ami_data`'s meter loop (skipped for
gas meters), continuing with `restRes`, the result for the remaining meters. -/
def ami_meter_tail (c : Ctx) (premise_number : String) (now : Int) (first : Bool)
    (m : Meter) (reqA : ApiReq) (wA : List SnapWrite)
    (restRes : List ApiReq × Except ApiError (List SnapWrite)) :
    List ApiReq × Except ApiError (List SnapWrite) :=
  if m.fuelType = "Gas" then
    (reqA :: restRes.1, Except.map (fun ws => wA ++ ws) restRes.2)
  else
    let start_ts : Int := if first then now - 157680000 else now - 86400
    let reqI := ApiReq.interval premise_number m.servicePointNumber start_ts
    match c.env.get_interval_reads premise_number m.servicePointNumber start_ts with
    | .ok reads =>
        (reqA :: reqI :: restRes.1,
          Except.map
            (fun ws => wA ++ SnapWrite.interval m.servicePointNumber reads :: ws)
            restRes.2)
    | .error e =>
        if natTupleCatches c.hier e then
          (reqA :: reqI :: restRes.1, Except.map (fun ws => wA ++ ws) restRes.2)
        else ([reqA, reqI], .error e)

/-- `_fetch_ami_data`: for each AMI-capable meter with a nonempty service
point, fetch AMI usages (window depending on the first-refresh marker; a
caught error leaves the previous snapshot entry in place), then interval
reads unless the meter's fuel type is `Gas`. -/
def fetch_ami_data (c : Ctx) (premise_number : String) (today : Date) (now : Int)
    (first : Bool) : List Meter → List ApiReq × Except ApiError (List SnapWrite)
  | [] => ([], .ok [])
  | m :: rest =>
    if m.hasAmiSmartMeter = false then
      fetch_ami_data c premise_number today now first rest
    else if m.servicePointNumber = "" then
      fetch_ami_data c premise_number today now first rest
    else
      let date_from : Date :=
        if first then dateSubDays today 1825 else dateSubDays today 2
      let date_to : Date := if first then dateSubDays today 3 else today
      let reqA := ApiReq.ami m.meterNumber premise_number m.servicePointNumber
        m.meterPointNumber date_from date_to
      match c.env.get_ami_energy_usages m.meterNumber premise_number
          m.servicePointNumber m.meterPointNumber date_from date_to with
      | .ok amiData =>
          ami_meter_tail c premise_number now first m reqA
            [SnapWrite.ami m.servicePointNumber amiData]
            (fetch_ami_data c premise_number today now first rest)
      | .error e =>
          if natTupleCatches c.hier e then
            ami_meter_tail c premise_number now first m reqA []
              (fetch_ami_data c premise_number today now first rest)
          else ([reqA], .error e)

/-- `_fetch_account_data`: billing account, meters, usages, costs, AMI. -/
def fetch_account_data (c : Ctx) (account_id : String) (today : Date) (now : Int)
    (from_month : Int) (first : Bool) :
    List ApiReq × Except ApiError (List SnapWrite) :=
  match c.env.get_billing_account account_id with
  | .error e => ([ApiReq.billing account_id], .error e)
  | .ok ba =>
    let meterWrites : List SnapWrite := ba.meters.filterMap fun m =>
      if m.servicePointNumber = "" then none
      else some (SnapWrite.meterData m.servicePointNumber ⟨m, account_id, ba⟩)
    match fetch_usages c account_id from_month with
    | .error e =>
        ([ApiReq.billing account_id, ApiReq.usages account_id from_month], .error e)
    | .ok us =>
      match fetch_costs c account_id today ba with
      | .error e =>
          ([ApiReq.billing account_id, ApiReq.usages account_id from_month]
            ++ costs_reqs account_id today ba, .error e)
      | .ok cs =>
        match fetch_ami_data c ba.premiseNumber today now first ba.meters with
        | (trA, .error e) =>
            ([ApiReq.billing account_id, ApiReq.usages account_id from_month]
              ++ costs_reqs account_id today ba ++ trA, .error e)
        | (trA, .ok wsA) =>
            ([ApiReq.billing account_id, ApiReq.usages account_id from_month]
              ++ costs_reqs account_id today ba ++ trA,
             .ok (SnapWrite.account account_id ba :: meterWrites
              ++ SnapWrite.usages account_id us
                :: SnapWrite.costs account_id cs :: wsA))

/-- The `for account_id in selected_accounts` loop: re-raise
`InvalidAuthError`, continue on the connectivity tuple. -/
def fetch_loop (c : Ctx) (today : Date) (now : Int) (from_month : Int)
    (first : Bool) : List String → NationalGridCoordinatorData →
    List ApiReq × Except ApiError NationalGridCoordinatorData
  | [], d => ([], .ok d)
  | a :: rest, d =>
    match fetch_account_data c a today now from_month first with
    | (tr, .ok ws) =>
        let r := fetch_loop c today now from_month first rest (applyWrites d ws)
        (tr ++ r.1, r.2)
    | (tr, .error e) =>
        if e = ApiError.invalidAuth then (tr, .error e)
        else if natTupleCatches c.hier e then
          let r := fetch_loop c today now from_month first rest d
          (tr ++ r.1, r.2)
        else (tr, .error e)

/-- The `from_month` computation of `_fetch_all_data`. -/
def from_month_of (today : Date) (first : Bool) : Int :=
  if first then monthCode (dateSubDays today 465)
  else (today.year - 1) * 100 + today.month

/-- `_fetch_all_data`: seed from the previous snapshot, set the snapshot's
first-refresh marker, run the account loop, and clear the coordinator's
first-refresh flag on success.  The `Bool` of the result is the new value of
`_is_first_refresh`. -/
def fetch_all_data (c : Ctx) (today : Date) (now : Int) (selected : List String)
    (prev : Option NationalGridCoordinatorData) (first : Bool) :
    List ApiReq × Except ApiError (NationalGridCoordinatorData × Bool) :=
  let d1 := { seed_from_previous prev with is_first_refresh := first }
  match fetch_loop c today now (from_month_of today first) first selected d1 with
  | (tr, .ok d) => (tr, .ok (d, false))
  | (tr, .error e) => (tr, .error e)

/-- What one call of `_async_update_data` does. -/
inductive UpdateOutcome where
  | ok (d : NationalGridCoordinatorData)
  | configEntryAuthFailed
  | updateFailed
  | unhandled (e : ApiError)

/-- `_async_update_data`: wrap `InvalidAuthError` in `ConfigEntryAuthFailed`
and the connectivity tuple in `UpdateFailed`; anything else escapes.  Returns
the outcome together with the new first-refresh flag. -/
def async_update_data (c : Ctx) (today : Date) (now : Int)
    (selected : List String) (prev : Option NationalGridCoordinatorData)
    (first : Bool) : UpdateOutcome × Bool :=
  match (fetch_all_data c today now selected prev first).2 with
  | .ok (d, f) => (UpdateOutcome.ok d, f)
  | .error ApiError.invalidAuth => (UpdateOutcome.configEntryAuthFailed, first)
  | .error ApiError.cannotConnect => (UpdateOutcome.updateFailed, first)
  | .error ApiError.retryExhausted => (UpdateOutcome.updateFailed, first)
  | .error ApiError.natGridOther => (UpdateOutcome.updateFailed, first)
  | .error e => (UpdateOutcome.unhandled e, first)

/-! ## Coordinator: state machine -/

/-- The coordinator's mutable state: the `_is_first_refresh` flag and the last
successful snapshot (`self.data`). -/
structure CoordState where
  is_first_refresh : Bool
  data : Option NationalGridCoordinatorData

/-- `__init__`: the flag starts `True`, no data yet. -/
def coordInit : CoordState := ⟨true, none⟩

/-- One scheduled update: on success the host stores the returned snapshot
and the flag value returned by `_fetch_all_data`; on failure both are
unchanged. -/
def coordUpdate (c : Ctx) (today : Date) (now : Int) (selected : List String)
    (s : CoordState) : CoordState × UpdateOutcome :=
  match async_update_data c today now selected s.data s.is_first_refresh with
  | (UpdateOutcome.ok d, f) => (⟨f, some d⟩, UpdateOutcome.ok d)
  | (out, f) => (⟨f, s.data⟩, out)

/-- `reset_to_first_refresh`: set the flag back to `True`. -/
def reset_to_first_refresh (s : CoordState) : CoordState :=
  { s with is_first_refresh := true }

/-! ## Coordinator: helpers for the claims -/

/-- The `from_month` argument of a usage request. -/
def ApiReq.usagesFromMonth : ApiReq → Option Int
  | .usages _ fm => some fm
  | _ => none

/-- The `(date_from, date_to)` arguments of an AMI request. -/
def ApiReq.amiRange : ApiReq → Option (Date × Date)
  | .ami _ _ _ _ f t => some (f, t)
  | _ => none

/-- The `start_datetime` argument of an interval request. -/
def ApiReq.intervalStart : ApiReq → Option Int
  | .interval _ _ s => some s
  | _ => none

/-- Service points for which an interval-read request is issued. -/
def intervalReqSps (trace : List ApiReq) : List String :=
  trace.filterMap fun r => match r with
    | ApiReq.interval _ sp _ => some sp
    | _ => none

/-- Service points of the electric meters of a meter list. -/
def electricSps (meters : List Meter) : List String :=
  meters.filterMap fun m =>
    if m.fuelType = "Electric" then some m.servicePointNumber else none

/-- Service points of the AMI-capable, nonempty-service-point, non-gas meters
— the ones the code fetches interval reads for. -/
def amiNonGasSps (meters : List Meter) : List String :=
  meters.filterMap fun m =>
    if m.hasAmiSmartMeter && !(decide (m.servicePointNumber = ""))
        && !(decide (m.fuelType = "Gas"))
    then some m.servicePointNumber else none

/-- The connectivity-class errors (`CannotConnectError`, `RetryExhaustedError`,
other `NationalGridError`). -/
def connectivityErr : ApiError → Bool
  | ApiError.cannotConnect => true
  | ApiError.retryExhausted => true
  | ApiError.natGridOther => true
  | _ => false

/-- The per-account fetch succeeds or fails with a connectivity-class error. -/
def okOrConn (c : Ctx) (a : String) (today : Date) (now : Int)
    (from_month : Int) (first : Bool) : Bool :=
  match (fetch_account_data c a today now from_month first).2 with
  | .ok _ => true
  | .error e => connectivityErr e

/-- The per-account fetch fails with a connectivity-class error. -/
def connFails (c : Ctx) (a : String) (today : Date) (now : Int)
    (from_month : Int) (first : Bool) : Bool :=
  match (fetch_account_data c a today now from_month first).2 with
  | .ok _ => false
  | .error e => connectivityErr e

/-- The per-account fetch raises `InvalidAuthError` out of
`_fetch_account_data`. -/
def authFails (c : Ctx) (a : String) (today : Date) (now : Int)
    (from_month : Int) (first : Bool) : Bool :=
  match (fetch_account_data c a today now from_month first).2 with
  | .error ApiError.invalidAuth => true
  | _ => false

/-- The per-account fetch succeeds, fails with a connectivity-class error, or
raises `InvalidAuthError`. -/
def okConnOrAuth (c : Ctx) (a : String) (today : Date) (now : Int)
    (from_month : Int) (first : Bool) : Bool :=
  match (fetch_account_data c a today now from_month first).2 with
  | .ok _ => true
  | .error e => connectivityErr e || e = ApiError.invalidAuth

/-- Did `_fetch_all_data` return normally? -/
def updOk : Except ApiError (NationalGridCoordinatorData × Bool) → Bool
  | .ok _ => true
  | .error _ => false

/-- The snapshot of a normal return (the empty snapshot otherwise). -/
def updData : Except ApiError (NationalGridCoordinatorData × Bool) →
    NationalGridCoordinatorData
  | .ok (d, _) => d
  | .error _ => emptyCoordinatorData

/-- Is an update outcome a success? -/
def UpdateOutcome.isOk : UpdateOutcome → Bool
  | UpdateOutcome.ok _ => true
  | _ => false

/-- Did the account loop finish without raising? -/
def loopOk : Except ApiError NationalGridCoordinatorData → Bool
  | .ok _ => true
  | .error _ => false

/-- The snapshot produced by the account loop (empty when it raised). -/
def loopData : Except ApiError NationalGridCoordinatorData →
    NationalGridCoordinatorData
  | .ok d => d
  | .error _ => emptyCoordinatorData

/-! ## Concrete cycles used by the witnesses and counterexamples -/

/-- A billing account with one AMI-capable electric meter. -/
def baOneElectric : BillingAccount :=
  ⟨"NE", "P1", [⟨"SP1", "M1", "MP1", "Electric", true⟩]⟩

/-- An API client for which every call succeeds. -/
def envAllOk : ApiEnv where
  get_billing_account := fun _ => Except.ok baOneElectric
  get_energy_usages := fun _ _ => Except.ok []
  get_energy_usage_costs := fun _ _ _ => Except.ok []
  get_ami_energy_usages := fun _ _ _ _ _ _ => Except.ok []
  get_interval_reads := fun _ _ _ => Except.ok []

/-- An API client for which account `B`'s billing call raises
`CannotConnectError` and everything else succeeds. -/
def envBFails : ApiEnv :=
  { envAllOk with
    get_billing_account := fun a =>
      if a = "B" then Except.error ApiError.cannotConnect
      else Except.ok baOneElectric }

/-- An API client whose `get_energy_usages` raises `InvalidAuthError`. -/
def envUsagesAuth : ApiEnv :=
  { envAllOk with
    get_energy_usages := fun _ _ => Except.error ApiError.invalidAuth }

/-- An API client whose `get_billing_account` raises `InvalidAuthError`. -/
def envBillingAuth : ApiEnv :=
  { envAllOk with
    get_billing_account := fun _ => Except.error ApiError.invalidAuth }

/-- A previous snapshot holding stale data for account `B`. -/
def c1Prev : NationalGridCoordinatorData :=
  { emptyCoordinatorData with
    accounts := fun k => if k = "B" then some ⟨"NE", "PB", []⟩ else none,
    usages := fun k => if k = "B" then some [⟨"TOTAL_KWH", 202501, 10⟩] else none,
    costs := fun k => if k = "B" then some [⟨"ELECTRIC", 1, 5⟩] else none }

/-! ## Lemmas about the accumulation fold -/

theorem accum_mem {α : Type} (f : α → Option (Int × Rat)) :
    ∀ (l : List α) (acc : Rat × List StatisticData) (s : StatisticData),
      s ∈ (l.foldl (accumStep f) acc).2 →
      s ∈ acc.2 ∨ ∃ x ∈ l, f x = some (s.start, s.state) := by
  intro l
  induction l with
  | nil => intro acc s hs; exact Or.inl hs
  | cons x rest ih =>
    intro acc s hs
    simp only [List.foldl_cons] at hs
    rcases ih (accumStep f acc x) s hs with h | ⟨y, hy, hfy⟩
    · unfold accumStep at h
      rcases hfx : f x with _ | ⟨t, v⟩
      · rw [hfx] at h; exact Or.inl h
      · rw [hfx] at h
        simp only [List.mem_append, List.mem_singleton] at h
        rcases h with h | h
        · exact Or.inl h
        · subst h
          exact Or.inr ⟨x, List.mem_cons_self x rest, hfx⟩
    · exact Or.inr ⟨y, List.mem_cons_of_mem x hy, hfy⟩

theorem accum_none {α : Type} (f : α → Option (Int × Rat)) :
    ∀ (l : List α) (acc : Rat × List StatisticData),
      (∀ x ∈ l, f x = none) → l.foldl (accumStep f) acc = acc := by
  intro l
  induction l with
  | nil => intro acc _; rfl
  | cons x rest ih =>
    intro acc h
    simp only [List.foldl_cons]
    have hx : accumStep f acc x = acc := by
      unfold accumStep; rw [h x (List.mem_cons_self x rest)]
    rw [hx]
    exact ih acc fun y hy => h y (List.mem_cons_of_mem x hy)

theorem lastSumD_concat (b : Rat) (x : StatisticData) :
    ∀ l : List StatisticData, lastSumD b (l ++ [x]) = x.sum := by
  intro l
  induction l generalizing b with
  | nil => rfl
  | cons s rest ih => exact ih s.sum

theorem sumsFrom_concat (x : StatisticData) :
    ∀ (l : List StatisticData) (b : Rat), sumsFrom b l →
      x.sum = lastSumD b l + x.state → sumsFrom b (l ++ [x]) := by
  intro l
  induction l with
  | nil =>
    intro b _ hx
    exact ⟨hx, trivial⟩
  | cons s rest ih =>
    intro b hl hx
    exact ⟨hl.1, ih s.sum hl.2 hx⟩

theorem accum_invariant {α : Type} (f : α → Option (Int × Rat)) :
    ∀ (l : List α) (base : Rat) (acc : Rat × List StatisticData),
      acc.1 = base + ((acc.2.map StatisticData.state).sum) →
      sumsFrom base acc.2 → acc.1 = lastSumD base acc.2 →
      (l.foldl (accumStep f) acc).1
          = base + (((l.foldl (accumStep f) acc).2.map StatisticData.state).sum)
        ∧ sumsFrom base (l.foldl (accumStep f) acc).2
        ∧ (l.foldl (accumStep f) acc).1 = lastSumD base (l.foldl (accumStep f) acc).2 := by
  intro l
  induction l with
  | nil => intro base acc h1 h2 h3; exact ⟨h1, h2, h3⟩
  | cons x rest ih =>
    intro base acc h1 h2 h3
    simp only [List.foldl_cons]
    rcases hfx : f x with _ | ⟨t, v⟩
    · have hx : accumStep f acc x = acc := by unfold accumStep; rw [hfx]
      rw [hx]
      exact ih base acc h1 h2 h3
    · have hx : accumStep f acc x = (acc.1 + v, acc.2 ++ [⟨t, v, acc.1 + v⟩]) := by
        unfold accumStep; rw [hfx]
      rw [hx]
      refine ih base _ ?_ ?_ ?_
      · simp only [List.map_append, List.sum_append, List.map_cons, List.map_nil,
          List.sum_cons, List.sum_nil]
        rw [h1]; ring
      · exact sumsFrom_concat _ acc.2 base h2 (by rw [← h3])
      · rw [lastSumD_concat]

theorem accum_result (f : α → Option (Int × Rat)) (l : List α) (base : Rat) :
    sumsFrom base (l.foldl (accumStep f) (base, [])).2
    ∧ lastSumD base (l.foldl (accumStep f) (base, [])).2
        = base + (((l.foldl (accumStep f) (base, [])).2.map StatisticData.state).sum) := by
  have h := accum_invariant f l base (base, []) (by simp) trivial rfl
  exact ⟨h.2.1, by rw [← h.2.2, h.1]⟩

/-! ## Lemmas about bucketing -/

theorem bucketTotal_insert (k : Int) (v : Rat) (h : Int) :
    ∀ l : List (Int × Rat),
      bucketTotal (bucketInsert l k v) h
        = bucketTotal l h + (if k = h then v else 0) := by
  intro l
  induction l with
  | nil =>
    by_cases hk : k = h
    · subst hk; simp [bucketInsert, bucketTotal]
    · simp [bucketInsert, bucketTotal, hk]
  | cons p rest ih =>
    rcases p with ⟨k', v'⟩
    simp only [bucketInsert]
    by_cases hk' : k' = k
    · rw [if_pos hk']
      subst hk'
      by_cases hkh : k' = h
      · simp only [bucketTotal, if_pos hkh]
      · simp only [bucketTotal, if_neg hkh]
        ring
    · rw [if_neg hk']
      simp only [bucketTotal]
      by_cases hkh : k' = h
      · rw [if_pos hkh, if_pos hkh]
        have hkne : ¬ k = h := fun hc => hk' (hkh.trans hc.symm)
        rw [if_neg hkne]; ring
      · rw [if_neg hkh, if_neg hkh]
        exact ih

theorem bucketTotal_fold (consOnly retOnly : Bool) (h : Int) :
    ∀ (reads : List IntervalRead) (l0 : List (Int × Rat)),
      bucketTotal (reads.foldl (intervalBucketStep consOnly retOnly) l0) h
        = bucketTotal l0 h + ((reads.map (contribution consOnly retOnly h)).sum) := by
  intro reads
  induction reads with
  | nil => intro l0; simp
  | cons rd rest ih =>
    intro l0
    simp only [List.foldl_cons, List.map_cons, List.sum_cons]
    rw [ih]
    have : bucketTotal (intervalBucketStep consOnly retOnly l0 rd) h
        = bucketTotal l0 h + contribution consOnly retOnly h rd := by
      obtain ⟨st, val⟩ := rd
      cases st with
      | none => simp [intervalBucketStep, contribution]
      | some ts =>
        simp only [intervalBucketStep, contribution]
        rcases hv : intervalFilterValue consOnly retOnly val with _ | v
        · simp [hv]
        · simp only [hv]
          rw [bucketTotal_insert]
    rw [this]; ring

theorem bucketInsert_key (k : Int) (v : Rat) (kv : Int × Rat) :
    ∀ l : List (Int × Rat), kv ∈ bucketInsert l k v →
      kv.1 ∈ l.map Prod.fst ∨ kv.1 = k := by
  intro l
  induction l with
  | nil =>
    intro hm
    simp only [bucketInsert, List.mem_singleton] at hm
    subst hm; exact Or.inr rfl
  | cons p rest ih =>
    rcases p with ⟨k', v'⟩
    intro hm
    simp only [bucketInsert] at hm
    by_cases hk' : k' = k
    · rw [if_pos hk'] at hm
      rcases List.mem_cons.mp hm with h | h
      · subst h
        exact Or.inl (by rw [List.map_cons]; exact List.mem_cons_self _ _)
      · exact Or.inl (by
          rw [List.map_cons]
          exact List.mem_cons_of_mem _ (List.mem_map_of_mem Prod.fst h))
    · rw [if_neg hk'] at hm
      rcases List.mem_cons.mp hm with h | h
      · subst h
        exact Or.inl (by rw [List.map_cons]; exact List.mem_cons_self _ _)
      · rcases ih h with h' | h'
        · exact Or.inl (by rw [List.map_cons]; exact List.mem_cons_of_mem _ h')
        · exact Or.inr h'

theorem bucket_keys (consOnly retOnly : Bool) :
    ∀ (reads : List IntervalRead) (l0 : List (Int × Rat)) (kv : Int × Rat),
      kv ∈ reads.foldl (intervalBucketStep consOnly retOnly) l0 →
      kv.1 ∈ l0.map Prod.fst
      ∨ ∃ rd ∈ reads, ∃ ts, rd.startTime = some ts ∧ hourFloor ts = kv.1 := by
  intro reads
  induction reads with
  | nil => intro l0 kv hm; exact Or.inl (List.mem_map_of_mem Prod.fst hm)
  | cons rd rest ih =>
    intro l0 kv hm
    simp only [List.foldl_cons] at hm
    rcases ih (intervalBucketStep consOnly retOnly l0 rd) kv hm with h | ⟨rd', h1, h2⟩
    · unfold intervalBucketStep at h
      rcases hst : rd.startTime with _ | ts
      · rw [hst] at h; exact Or.inl h
      · rw [hst] at h
        rcases hv : intervalFilterValue consOnly retOnly rd.value with _ | v
        · rw [hv] at h; exact Or.inl h
        · rw [hv] at h
          simp only [List.mem_map] at h
          rcases h with ⟨p, hp, hpk⟩
          rcases bucketInsert_key (hourFloor ts) v p l0 hp with h' | h'
          · rw [← hpk]; exact Or.inl h'
          · exact Or.inr ⟨rd, List.mem_cons_self rd rest, ts, hst, by rw [← hpk, h']⟩
    · exact Or.inr ⟨rd', List.mem_cons_of_mem rd h1, h2⟩

/-! ## Common facts about the import functions -/

theorem hourly_ops_id (store : Store) (nowTs : Int) (sp : String)
    (readings : List AmiReading) (g f c r : Bool) :
    ∀ op ∈ import_hourly_stats_ops store nowTs sp readings g f c r,
      StoreOp.id op = hourlyStatId sp g r := by
  intro op hop
  simp only [import_hourly_stats_ops] at hop
  split at hop
  · simp only [List.mem_singleton] at hop; subst hop; rfl
  · rcases List.mem_cons.mp hop with h | h
    · subst h; rfl
    · simp only [List.mem_singleton] at h; subst h; rfl

theorem hourly_ops_read_mem (store : Store) (nowTs : Int) (sp : String)
    (readings : List AmiReading) (g f c r : Bool) :
    StoreOp.read (hourlyStatId sp g r)
      ∈ import_hourly_stats_ops store nowTs sp readings g f c r := by
  simp only [import_hourly_stats_ops]
  split
  · exact List.mem_singleton.mpr rfl
  · exact List.mem_cons_self _ _

theorem interval_ops_id (store : Store) (sp : String)
    (reads : List IntervalRead) (c r : Bool) :
    ∀ op ∈ import_interval_stats_ops store sp reads c r,
      StoreOp.id op = intervalStatId sp r := by
  intro op hop
  simp only [import_interval_stats_ops] at hop
  split at hop
  · simp only [List.mem_singleton] at hop; subst hop; rfl
  · rcases List.mem_cons.mp hop with h | h
    · subst h; rfl
    · simp only [List.mem_singleton] at h; subst h; rfl

theorem interval_ops_read_mem (store : Store) (sp : String)
    (reads : List IntervalRead) (c r : Bool) :
    StoreOp.read (intervalStatId sp r)
      ∈ import_interval_stats_ops store sp reads c r := by
  simp only [import_interval_stats_ops]
  split
  · exact List.mem_singleton.mpr rfl
  · exact List.mem_cons_self _ _

/-! ## Claim theorems: statistics importer -/

/-- Inversion: a row emitted by the hourly loop has a parsed date, starts at
the hour-truncated timestamp, is strictly newer than the last-imported
timestamp, and on an incremental run is at or after the 48-hour cutoff. -/
theorem hourlyEmit_eq_some (p : HourlyParams) (r : AmiReading) (t : Int) (v : Rat)
    (h : hourlyEmit p r = some (t, v)) :
    ∃ ts : Int, r.date = some ts ∧ t = hourFloor ts ∧ p.lastTs < t
      ∧ (p.isFirstRefresh = false → p.nowTs - 172800 ≤ t) := by
  rcases hd : r.date with _ | ts
  · simp only [hourlyEmit, hd] at h
    exact Option.noConfusion h
  · simp only [hourlyEmit, hd] at h
    by_cases h1 : (p.consumptionOnly && decide (r.quantity < 0)) = true
    · rw [if_pos h1] at h; exact Option.noConfusion h
    · rw [if_neg h1] at h
      by_cases h2 : (p.returnOnly && decide (0 ≤ r.quantity)) = true
      · rw [if_pos h2] at h; exact Option.noConfusion h
      · rw [if_neg h2] at h
        by_cases h3 : decide (hourFloor ts ≤ p.lastTs) = true
        · rw [if_pos h3] at h; exact Option.noConfusion h
        · rw [if_neg h3] at h
          by_cases h4 : ((!p.isFirstRefresh) && decide (hourFloor ts < p.nowTs - 172800)) = true
          · rw [if_pos h4] at h; exact Option.noConfusion h
          · rw [if_neg h4] at h
            have ht : hourFloor ts = t :=
              congrArg Prod.fst ((Option.some.injEq _ _).mp h)
            refine ⟨ts, rfl, ht.symm, ?_, ?_⟩
            · rw [← ht]
              exact lt_of_not_le fun hc => h3 (decide_eq_true hc)
            · intro hf
              rw [← ht]
              refine le_of_not_lt fun hlt => h4 ?_
              rw [hf]
              simp only [Bool.not_false, Bool.true_and]
              exact decide_eq_true hlt

/-- Inversion for the interval emission step. -/
theorem intervalEmit_eq_some (lastTs : Int) (kv : Int × Rat) (t : Int) (v : Rat)
    (h : intervalEmit lastTs kv = some (t, v)) : t = kv.1 ∧ lastTs < t := by
  unfold intervalEmit at h
  by_cases h1 : decide (kv.1 ≤ lastTs) = true
  · rw [if_pos h1] at h; exact Option.noConfusion h
  · rw [if_neg h1] at h
    have ht : kv.1 = t := congrArg Prod.fst ((Option.some.injEq _ _).mp h)
    exact ⟨ht.symm, ht ▸ lt_of_not_le fun hc => h1 (decide_eq_true hc)⟩

/-- When every reading is at or before the last-imported timestamp, the hourly
loop emits nothing. -/
theorem import_hourly_stats_nil (p : HourlyParams) (readings : List AmiReading)
    (h : ∀ r ∈ readings, ∀ ts : Int, r.date = some ts → hourFloor ts ≤ p.lastTs) :
    import_hourly_stats p readings = [] := by
  unfold import_hourly_stats
  rw [accum_none]
  intro r hr
  have hrm : r ∈ readings := (List.mem_insertionSort _).mp hr
  rcases hd : r.date with _ | ts
  · simp only [hourlyEmit, hd]
  · simp only [hourlyEmit, hd]
    by_cases h1 : (p.consumptionOnly && decide (r.quantity < 0)) = true
    · rw [if_pos h1]
    · rw [if_neg h1]
      by_cases h2 : (p.returnOnly && decide (0 ≤ r.quantity)) = true
      · rw [if_pos h2]
      · rw [if_neg h2]
        rw [if_pos (decide_eq_true (h r hrm ts hd))]

/-- When every read is at or before the last-imported timestamp, the interval
loop emits nothing. -/
theorem import_interval_stats_nil (consOnly retOnly : Bool) (lastTs : Int)
    (lastSum : Rat) (reads : List IntervalRead)
    (h : ∀ rd ∈ reads, ∀ ts : Int, rd.startTime = some ts → hourFloor ts ≤ lastTs) :
    import_interval_stats consOnly retOnly lastTs lastSum reads = [] := by
  unfold import_interval_stats
  rw [accum_none]
  intro kv hkv
  have hkm : kv ∈ intervalBuckets consOnly retOnly reads :=
    (List.mem_insertionSort _).mp hkv
  unfold intervalBuckets at hkm
  rcases bucket_keys consOnly retOnly reads [] kv hkm with hk | ⟨rd, hrd, ts, hts, hflo⟩
  · exact absurd hk (List.not_mem_nil kv.1)
  · unfold intervalEmit
    have hle := h rd hrd ts hts
    rw [hflo] at hle
    rw [if_pos (decide_eq_true hle)]

/-! ## Claim theorems: statistics importer -/

/-- C3: on an incremental (non-first) run every written AMI row starts at or
after the 48-hour cutoff `now - 172800`, so a reading whose hour-truncated
timestamp is older than the cutoff is never written even if it is newer than
the last-imported timestamp; on a first-refresh run the output does not depend
on the current time at all (no 48-hour cutoff is applied). -/
theorem c3_ami_48h_cutoff (p : HourlyParams) (readings : List AmiReading) :
    (p.isFirstRefresh = false →
      ∀ s ∈ import_hourly_stats p readings, p.nowTs - 172800 ≤ s.start)
    ∧ (p.isFirstRefresh = true → ∀ n₁ n₂ : Int,
      import_hourly_stats { p with nowTs := n₁ } readings
        = import_hourly_stats { p with nowTs := n₂ } readings) := by
  constructor
  · intro hf s hs
    unfold import_hourly_stats at hs
    rcases accum_mem (hourlyEmit p) _ _ s hs with h | ⟨r, _, hemit⟩
    · exact absurd h (List.not_mem_nil s)
    · rcases hourlyEmit_eq_some p r s.start s.state hemit with ⟨ts, _, _, _, hcut⟩
      exact hcut hf
  · intro hf n₁ n₂
    have hemit : ∀ r, hourlyEmit { p with nowTs := n₁ } r
        = hourlyEmit { p with nowTs := n₂ } r := by
      intro r
      rcases hd : r.date with _ | ts
      · simp [hourlyEmit, hd]
      · simp [hourlyEmit, hd, hf, hourlyValue, signAdjust]
    unfold import_hourly_stats
    rw [List.foldl_ext (accumStep (hourlyEmit { p with nowTs := n₁ }))
      (accumStep (hourlyEmit { p with nowTs := n₂ })) _
      (fun a b _ => by unfold accumStep; rw [hemit b])]

/-- Witness for C3 at concrete inputs: a reading exactly at the cutoff is kept
on an incremental run, and a first-refresh run gives the same rows for two
different wall-clock times. -/
theorem c3_witness :
    ((345600 : Int) - 172800 ≤ (StatisticData.mk 345600 2 2).start)
    ∧ import_hourly_stats ⟨false, true, false, false, 0, 0, 0⟩ [⟨some 3600, 1⟩]
      = import_hourly_stats ⟨false, true, false, false, 999999, 0, 0⟩ [⟨some 3600, 1⟩] := by
  constructor
  · have hcomp : import_hourly_stats ⟨false, false, false, false, 345600, 0, 0⟩
        [⟨some 345600, 2⟩] = [⟨345600, 2, 2⟩] := by
      norm_num [import_hourly_stats, List.insertionSort, List.orderedInsert,
        accumStep, hourlyEmit, hourlyValue, signAdjust, hourFloor, dateLe, Int.fdiv]
    exact (c3_ami_48h_cutoff ⟨false, false, false, false, 345600, 0, 0⟩
      [⟨some 345600, 2⟩]).1 rfl ⟨345600, 2, 2⟩
      (by rw [hcomp]; exact List.mem_singleton.mpr rfl)
  · exact (c3_ami_48h_cutoff ⟨false, true, false, false, 0, 0, 0⟩
      [⟨some 3600, 1⟩]).2 rfl 0 999999

/-- C4: the importer is append-only and idempotent.  Every written hourly or
interval row starts strictly after the last-imported timestamp of its series,
and when every candidate reading's hour-truncated timestamp is at or before
the stored last-imported timestamp the run performs only the store read — no
write is issued at all. -/
theorem c4_append_only_idempotent (p : HourlyParams) (readings : List AmiReading)
    (consOnly retOnly : Bool) (lastTs : Int) (lastSum : Rat)
    (reads : List IntervalRead) (store : Store) (nowTs : Int) (sp : String)
    (isGas isFirst hCons hRet iCons iRet : Bool) :
    (∀ s ∈ import_hourly_stats p readings, p.lastTs < s.start)
    ∧ (∀ s ∈ import_interval_stats consOnly retOnly lastTs lastSum reads,
        lastTs < s.start)
    ∧ ((∀ r ∈ readings, ∀ ts : Int, r.date = some ts →
          hourFloor ts ≤ (readLast store (hourlyStatId sp isGas hRet)).2) →
        import_hourly_stats_ops store nowTs sp readings isGas isFirst hCons hRet
          = [StoreOp.read (hourlyStatId sp isGas hRet)])
    ∧ ((∀ rd ∈ reads, ∀ ts : Int, rd.startTime = some ts →
          hourFloor ts ≤ (readLast store (intervalStatId sp iRet)).2) →
        import_interval_stats_ops store sp reads iCons iRet
          = [StoreOp.read (intervalStatId sp iRet)]) := by
  refine ⟨?_, ?_, ?_, ?_⟩
  · intro s hs
    unfold import_hourly_stats at hs
    rcases accum_mem (hourlyEmit p) _ _ s hs with h | ⟨r, _, hemit⟩
    · exact absurd h (List.not_mem_nil s)
    · rcases hourlyEmit_eq_some p r s.start s.state hemit with ⟨ts, _, _, hlt, _⟩
      exact hlt
  · intro s hs
    unfold import_interval_stats at hs
    rcases accum_mem (intervalEmit lastTs) _ _ s hs with h | ⟨kv, _, hemit⟩
    · exact absurd h (List.not_mem_nil s)
    · exact (intervalEmit_eq_some lastTs kv s.start s.state hemit).2
  · intro hall
    have hnil : import_hourly_stats
        ⟨isGas, isFirst, hCons, hRet, nowTs,
          (readLast store (hourlyStatId sp isGas hRet)).2,
          (readLast store (hourlyStatId sp isGas hRet)).1⟩ readings = [] :=
      import_hourly_stats_nil _ readings hall
    simp only [import_hourly_stats_ops]
    rw [if_pos hnil]
  · intro hall
    have hnil : import_interval_stats iCons iRet
        (readLast store (intervalStatId sp iRet)).2
        (readLast store (intervalStatId sp iRet)).1 reads = [] :=
      import_interval_stats_nil iCons iRet _ _ reads hall
    simp only [import_interval_stats_ops]
    rw [if_pos hnil]

/-- Witness for C4 at concrete inputs: a new reading is written strictly after
the stored timestamp, and runs whose readings are all at or before the stored
last-imported timestamp perform only the store read. -/
theorem c4_witness :
    ((7200 : Int) < (StatisticData.mk 10800 1 6).start)
    ∧ import_hourly_stats_ops
        (fun i => if i = hourlyStatId "9" false false then some ⟨5, 7200⟩ else none)
        183600 "9" [⟨some 3600, 1⟩] false false true false
      = [StoreOp.read (hourlyStatId "9" false false)]
    ∧ import_interval_stats_ops
        (fun i => if i = intervalStatId "9" false then some ⟨5, 7200⟩ else none)
        "9" [⟨some 3600, 1⟩] true false
      = [StoreOp.read (intervalStatId "9" false)] := by
  refine ⟨?_, ?_, ?_⟩
  · have hcomp : import_hourly_stats ⟨false, false, false, false, 183600, 7200, 5⟩
        [⟨some 10800, 1⟩] = [⟨10800, 1, 6⟩] := by
      norm_num [import_hourly_stats, List.insertionSort, List.orderedInsert,
        accumStep, hourlyEmit, hourlyValue, signAdjust, hourFloor, dateLe, Int.fdiv]
    exact (c4_append_only_idempotent
      ⟨false, false, false, false, 183600, 7200, 5⟩ [⟨some 10800, 1⟩]
      true false 0 0 [] (fun _ => none) 0 "9"
      false false true false true false).1 ⟨10800, 1, 6⟩
      (by rw [hcomp]; exact List.mem_singleton.mpr rfl)
  · exact (c4_append_only_idempotent
      ⟨false, false, false, false, 183600, 7200, 5⟩ [⟨some 3600, 1⟩]
      true false 0 0 [⟨some 3600, 1⟩]
      (fun i => if i = hourlyStatId "9" false false then some ⟨5, 7200⟩ else none)
      183600 "9" false false true false true false).2.2.1
      (by
        intro r hr ts hts
        simp only [List.mem_singleton] at hr
        subst hr
        injection hts with h
        subst h
        decide)
  · exact (c4_append_only_idempotent
      ⟨false, false, false, false, 183600, 7200, 5⟩ [⟨some 3600, 1⟩]
      true false 0 0 [⟨some 3600, 1⟩]
      (fun i => if i = intervalStatId "9" false then some ⟨5, 7200⟩ else none)
      183600 "9" false false true false true false).2.2.2
      (by
        intro rd hrd ts hts
        simp only [List.mem_singleton] at hrd
        subst hrd
        injection hts with h
        subst h
        decide)

/-- C5: for both the hourly and the interval importer, each written row's
`sum` is the previous row's `sum` (starting from the stored last sum) plus its
own `state`, and the `sum` of the last written row equals the stored last sum
plus the total of all newly included (sign-adjusted, unit-converted) values. -/
theorem c5_cumulative_sum (p : HourlyParams) (readings : List AmiReading)
    (consOnly retOnly : Bool) (lastTs : Int) (lastSum : Rat)
    (reads : List IntervalRead) :
    (sumsFrom p.lastSum (import_hourly_stats p readings)
      ∧ lastSumD p.lastSum (import_hourly_stats p readings)
          = p.lastSum + ((import_hourly_stats p readings).map StatisticData.state).sum)
    ∧ (sumsFrom lastSum (import_interval_stats consOnly retOnly lastTs lastSum reads)
      ∧ lastSumD lastSum (import_interval_stats consOnly retOnly lastTs lastSum reads)
          = lastSum + ((import_interval_stats consOnly retOnly lastTs lastSum reads).map
              StatisticData.state).sum) :=
  ⟨accum_result (hourlyEmit p)
      (readings.insertionSort (fun r₁ r₂ => dateLe r₁.date r₂.date = true)) p.lastSum,
    accum_result (intervalEmit lastTs)
      ((intervalBuckets consOnly retOnly reads).insertionSort
        (fun a b => a.1 ≤ b.1)) lastSum⟩

/-- C6: each interval read's (filtered, sign-adjusted) value is summed into
the bucket of the top of its start hour, and the concrete example — reads at
10:00, 10:15 and 11:00 UTC with values 0.25, 0.30, 0.50 — yields exactly two
hourly rows with states 0.55 and 0.50. -/
theorem c6_interval_bucketing (consOnly retOnly : Bool)
    (reads : List IntervalRead) (h : Int) :
    bucketTotal (intervalBuckets consOnly retOnly reads) h
        = (reads.map (contribution consOnly retOnly h)).sum
    ∧ import_interval_stats true false 0 0
        [⟨some 1704103200, 0.25⟩, ⟨some 1704104100, 0.3⟩, ⟨some 1704106800, 0.5⟩]
      = [⟨1704103200, 0.55, 0.55⟩, ⟨1704106800, 0.5, 1.05⟩] := by
  constructor
  · have hb := bucketTotal_fold consOnly retOnly h reads []
    simpa [intervalBuckets, bucketTotal] using hb
  · norm_num [import_interval_stats, intervalBuckets, intervalBucketStep,
      bucketInsert, intervalFilterValue, intervalEmit, accumStep,
      List.insertionSort, List.orderedInsert, hourFloor, Int.fdiv]

/-- C10: when every reading is nonnegative, the electric importer performs
exactly the consumption-series operations — every operation touches the
consumption statistic id (which differs from the return id), so the return
series is neither read nor written — while the consumption series is still
read (processed); the same holds for the interval importer. -/
theorem c10_return_series_only_when_negative (store : Store) (nowTs : Int)
    (sp : String) (readings : List AmiReading) (reads : List IntervalRead)
    (isFirst : Bool)
    (hq : ∀ r ∈ readings, 0 ≤ r.quantity) (hv : ∀ rd ∈ reads, 0 ≤ rd.value) :
    import_hourly_stats_electric_ops store nowTs sp readings isFirst
        = import_hourly_stats_ops store nowTs sp readings false isFirst true false
    ∧ (∀ op ∈ import_hourly_stats_electric_ops store nowTs sp readings isFirst,
        StoreOp.id op = hourlyStatId sp false false)
    ∧ hourlyStatId sp false false ≠ hourlyStatId sp false true
    ∧ StoreOp.read (hourlyStatId sp false false)
        ∈ import_hourly_stats_electric_ops store nowTs sp readings isFirst
    ∧ import_interval_stats_electric_ops store sp reads
        = import_interval_stats_ops store sp reads true false
    ∧ (∀ op ∈ import_interval_stats_electric_ops store sp reads,
        StoreOp.id op = intervalStatId sp false)
    ∧ intervalStatId sp false ≠ intervalStatId sp true
    ∧ StoreOp.read (intervalStatId sp false)
        ∈ import_interval_stats_electric_ops store sp reads := by
  have hnegq : readings.any (fun r => decide (r.quantity < 0)) = false := by
    rw [Bool.eq_false_iff]
    intro hc
    rcases List.any_eq_true.mp hc with ⟨r, hr, hlt⟩
    exact absurd (of_decide_eq_true hlt) (not_lt.mpr (hq r hr))
  have hnegv : reads.any (fun r => decide (r.value < 0)) = false := by
    rw [Bool.eq_false_iff]
    intro hc
    rcases List.any_eq_true.mp hc with ⟨r, hr, hlt⟩
    exact absurd (of_decide_eq_true hlt) (not_lt.mpr (hv r hr))
  have he : import_hourly_stats_electric_ops store nowTs sp readings isFirst
      = import_hourly_stats_ops store nowTs sp readings false isFirst true false := by
    unfold import_hourly_stats_electric_ops
    rw [hnegq]
    simp
  have hie : import_interval_stats_electric_ops store sp reads
      = import_interval_stats_ops store sp reads true false := by
    unfold import_interval_stats_electric_ops
    rw [hnegv]
    simp
  have hidne : hourlyStatId sp false false ≠ hourlyStatId sp false true := by
    intro hc
    have hc' : DOMAIN ++ ":" ++ sp ++ "_electric_hourly_usage"
        = DOMAIN ++ ":" ++ sp ++ "_electric_return_hourly_usage" := by
      simpa [hourlyStatId] using hc
    have hlen := congrArg String.length hc'
    simp only [String.length_append] at hlen
    rw [show ("_electric_hourly_usage" : String).length = 22 from rfl,
      show ("_electric_return_hourly_usage" : String).length = 29 from rfl] at hlen
    omega
  have hidnei : intervalStatId sp false ≠ intervalStatId sp true := by
    intro hc
    have hc' : DOMAIN ++ ":" ++ sp ++ "_electric_interval_usage"
        = DOMAIN ++ ":" ++ sp ++ "_electric_interval_return_usage" := by
      simpa [intervalStatId] using hc
    have hlen := congrArg String.length hc'
    simp only [String.length_append] at hlen
    rw [show ("_electric_interval_usage" : String).length = 24 from rfl,
      show ("_electric_interval_return_usage" : String).length = 31 from rfl] at hlen
    omega
  refine ⟨he, ?_, hidne, ?_, hie, ?_, hidnei, ?_⟩
  · intro op hop
    rw [he] at hop
    exact hourly_ops_id store nowTs sp readings false isFirst true false op hop
  · rw [he]
    exact hourly_ops_read_mem store nowTs sp readings false isFirst true false
  · intro op hop
    rw [hie] at hop
    exact interval_ops_id store sp reads true false op hop
  · rw [hie]
    exact interval_ops_read_mem store sp reads true false

/-- Witness for C10 at concrete all-nonnegative inputs. -/
theorem c10_witness :
    import_hourly_stats_electric_ops (fun _ => none) 7200 "77" [⟨some 3600, 1⟩] false
      = import_hourly_stats_ops (fun _ => none) 7200 "77" [⟨some 3600, 1⟩]
          false false true false
    ∧ import_interval_stats_electric_ops (fun _ => none) "77" [⟨some 3600, 1⟩]
      = import_interval_stats_ops (fun _ => none) "77" [⟨some 3600, 1⟩] true false := by
  constructor
  · exact (c10_return_series_only_when_negative (fun _ => none) 7200 "77"
      [⟨some 3600, 1⟩] [⟨some 3600, 1⟩] false (by decide) (by decide)).1
  · exact (c10_return_series_only_when_negative (fun _ => none) 7200 "77"
      [⟨some 3600, 1⟩] [⟨some 3600, 1⟩] false (by decide) (by decide)).2.2.2.2.1

/-! ## Coordinator lemmas: snapshot writes -/

theorem except_map_ok {α β ε : Type} (f : α → β) (r : Except ε α) (b : β)
    (h : Except.map f r = Except.ok b) : ∃ a, r = Except.ok a ∧ b = f a := by
  cases r with
  | error e => simp [Except.map] at h
  | ok a => exact ⟨a, rfl, ((Except.ok.injEq _ _).mp h).symm⟩

theorem ami_meter_tail_keys (c : Ctx) (premise_number : String) (now : Int)
    (first : Bool) (m : Meter) (reqA : ApiReq) (wA : List SnapWrite)
    (restRes : List ApiReq × Except ApiError (List SnapWrite))
    (hwA : ∀ w ∈ wA, SnapWrite.accountKey w = none)
    (hrest : ∀ ws, restRes.2 = Except.ok ws →
      ∀ w ∈ ws, SnapWrite.accountKey w = none) :
    ∀ ws, (ami_meter_tail c premise_number now first m reqA wA restRes).2
        = Except.ok ws → ∀ w ∈ ws, SnapWrite.accountKey w = none := by
  intro ws hws w hw
  simp only [ami_meter_tail] at hws
  by_cases hg : m.fuelType = "Gas"
  · rw [if_pos hg] at hws
    rcases except_map_ok _ _ _ hws with ⟨ws', hrr, hwsf⟩
    subst hwsf
    rcases List.mem_append.mp hw with h | h
    · exact hwA w h
    · exact hrest ws' hrr w h
  · rw [if_neg hg] at hws
    rcases hir : c.env.get_interval_reads premise_number m.servicePointNumber
        (if first = true then now - 157680000 else now - 86400) with e | rds
    · simp only [hir] at hws
      by_cases hc : natTupleCatches c.hier e = true
      · rw [if_pos hc] at hws
        rcases except_map_ok _ _ _ hws with ⟨ws', hrr, hwsf⟩
        subst hwsf
        rcases List.mem_append.mp hw with h | h
        · exact hwA w h
        · exact hrest ws' hrr w h
      · rw [if_neg hc] at hws
        exact Except.noConfusion hws
    · simp only [hir] at hws
      rcases except_map_ok _ _ _ hws with ⟨ws', hrr, hwsf⟩
      subst hwsf
      rcases List.mem_append.mp hw with h | h
      · exact hwA w h
      · rcases List.mem_cons.mp h with h' | h'
        · subst h'; rfl
        · exact hrest ws' hrr w h'

theorem fetch_ami_data_keys (c : Ctx) (premise_number : String) (today : Date)
    (now : Int) (first : Bool) :
    ∀ (meters : List Meter) (ws : List SnapWrite),
      (fetch_ami_data c premise_number today now first meters).2 = Except.ok ws →
      ∀ w ∈ ws, SnapWrite.accountKey w = none := by
  intro meters
  induction meters with
  | nil =>
    intro ws hws w hw
    simp only [fetch_ami_data] at hws
    rw [← (Except.ok.injEq _ _).mp hws] at hw
    exact absurd hw (List.not_mem_nil w)
  | cons m rest ih =>
    intro ws hws w hw
    simp only [fetch_ami_data] at hws
    by_cases h1 : m.hasAmiSmartMeter = false
    · rw [if_pos h1] at hws
      exact ih ws hws w hw
    · rw [if_neg h1] at hws
      by_cases h2 : m.servicePointNumber = ""
      · rw [if_pos h2] at hws
        exact ih ws hws w hw
      · rw [if_neg h2] at hws
        rcases ha : c.env.get_ami_energy_usages m.meterNumber premise_number
            m.servicePointNumber m.meterPointNumber
            (if first = true then dateSubDays today 1825 else dateSubDays today 2)
            (if first = true then dateSubDays today 3 else today) with e | amiData
        · simp only [ha] at hws
          by_cases hc : natTupleCatches c.hier e = true
          · rw [if_pos hc] at hws
            exact ami_meter_tail_keys c premise_number now first m _ [] _
              (fun w' hw' => absurd hw' (List.not_mem_nil w'))
              (fun ws' hws' => ih ws' hws') ws hws w hw
          · rw [if_neg hc] at hws
            exact Except.noConfusion hws
        · simp only [ha] at hws
          exact ami_meter_tail_keys c premise_number now first m _
            [SnapWrite.ami m.servicePointNumber amiData] _
            (fun w' hw' => by
              simp only [List.mem_singleton] at hw'
              subst hw'; rfl)
            (fun ws' hws' => ih ws' hws') ws hws w hw

theorem fetch_account_data_keys (c : Ctx) (a : String) (today : Date) (now : Int)
    (fm : Int) (first : Bool) (ws : List SnapWrite)
    (h : (fetch_account_data c a today now fm first).2 = Except.ok ws) :
    ∀ w ∈ ws, ∀ k, SnapWrite.accountKey w = some k → k = a := by
  intro w hw k hk
  simp only [fetch_account_data] at h
  rcases hb : c.env.get_billing_account a with e | ba
  · simp only [hb] at h
    exact Except.noConfusion h
  · simp only [hb] at h
    rcases hu : fetch_usages c a fm with e | us
    · simp only [hu] at h
      exact Except.noConfusion h
    · simp only [hu] at h
      rcases hco : fetch_costs c a today ba with e | cs
      · simp only [hco] at h
        exact Except.noConfusion h
      · simp only [hco] at h
        rcases hk2 : fetch_ami_data c ba.premiseNumber today now first ba.meters
          with ⟨trA, rA⟩
        rcases rA with e | wsA
        · simp only [hk2] at h
          exact Except.noConfusion h
        · simp only [hk2] at h
          rw [← (Except.ok.injEq _ _).mp h] at hw
          rcases List.mem_cons.mp hw with h1 | h1
          · subst h1
            exact ((Option.some.injEq _ _).mp hk).symm
          · rcases List.mem_append.mp h1 with h2 | h2
            · rcases List.mem_filterMap.mp h2 with ⟨m, _, hmw⟩
              by_cases hsp : m.servicePointNumber = ""
              · rw [if_pos hsp] at hmw
                exact Option.noConfusion hmw
              · rw [if_neg hsp] at hmw
                rw [← (Option.some.injEq _ _).mp hmw] at hk
                exact Option.noConfusion hk
            · rcases List.mem_cons.mp h2 with h3 | h3
              · subst h3
                exact ((Option.some.injEq _ _).mp hk).symm
              · rcases List.mem_cons.mp h3 with h4 | h4
                · subst h4
                  exact ((Option.some.injEq _ _).mp hk).symm
                · have hnone := fetch_ami_data_keys c ba.premiseNumber today now
                    first ba.meters wsA (by rw [hk2]) w h4
                  rw [hnone] at hk
                  exact Option.noConfusion hk

theorem applyWrites_preserve (x : String) :
    ∀ (ws : List SnapWrite) (d : NationalGridCoordinatorData),
      (∀ w ∈ ws, ∀ k, SnapWrite.accountKey w = some k → k ≠ x) →
      (applyWrites d ws).accounts x = d.accounts x
      ∧ (applyWrites d ws).usages x = d.usages x
      ∧ (applyWrites d ws).costs x = d.costs x := by
  intro ws
  induction ws with
  | nil => intro d _; exact ⟨rfl, rfl, rfl⟩
  | cons w rest ih =>
    intro d hks
    have hrest := ih (applyWrite d w)
      (fun w' hw' => hks w' (List.mem_cons_of_mem w hw'))
    have hstep : (applyWrite d w).accounts x = d.accounts x
        ∧ (applyWrite d w).usages x = d.usages x
        ∧ (applyWrite d w).costs x = d.costs x := by
      cases w with
      | account i ba =>
        have hne : i ≠ x := hks _ (List.mem_cons_self _ _) i rfl
        refine ⟨?_, rfl, rfl⟩
        simp only [applyWrite, strInsert]
        rw [if_neg (fun hc : x = i => hne hc.symm)]
      | usages i us =>
        have hne : i ≠ x := hks _ (List.mem_cons_self _ _) i rfl
        refine ⟨rfl, ?_, rfl⟩
        simp only [applyWrite, strInsert]
        rw [if_neg (fun hc : x = i => hne hc.symm)]
      | costs i cs =>
        have hne : i ≠ x := hks _ (List.mem_cons_self _ _) i rfl
        refine ⟨rfl, rfl, ?_⟩
        simp only [applyWrite, strInsert]
        rw [if_neg (fun hc : x = i => hne hc.symm)]
      | meterData sp md => exact ⟨rfl, rfl, rfl⟩
      | ami sp rs => exact ⟨rfl, rfl, rfl⟩
      | interval sp rs => exact ⟨rfl, rfl, rfl⟩
    exact ⟨hrest.1.trans hstep.1, hrest.2.1.trans hstep.2.1,
      hrest.2.2.trans hstep.2.2⟩

/-! ## Coordinator lemmas: the account loop -/

theorem connectivity_props (e : ApiError) (h : connectivityErr e = true) :
    ¬ e = ApiError.invalidAuth ∧ ∀ hier, natTupleCatches hier e = true := by
  cases e <;> simp_all [connectivityErr, natTupleCatches]

theorem fetch_loop_ok (c : Ctx) (today : Date) (now : Int) (fm : Int)
    (first : Bool) :
    ∀ (sel : List String) (d : NationalGridCoordinatorData),
      (∀ a ∈ sel, okOrConn c a today now fm first = true) →
      loopOk (fetch_loop c today now fm first sel d).2 = true := by
  intro sel
  induction sel with
  | nil => intro d _; rfl
  | cons a rest ih =>
    intro d hall
    have ha := hall a (List.mem_cons_self a rest)
    have hrest := fun b hb => hall b (List.mem_cons_of_mem a hb)
    rcases hfa : fetch_account_data c a today now fm first with ⟨tr, r⟩
    rcases r with e | ws
    · have hce : connectivityErr e = true := by
        simp only [okOrConn, hfa] at ha
        exact ha
      obtain ⟨hne, hcat⟩ := connectivity_props e hce
      simp only [fetch_loop, hfa]
      simp only [if_neg hne, if_pos (hcat c.hier)]
      exact ih d hrest
    · simp only [fetch_loop, hfa]
      exact ih (applyWrites d ws) hrest

theorem fetch_loop_preserve (c : Ctx) (today : Date) (now : Int) (fm : Int)
    (first : Bool) (x : String)
    (hx : connFails c x today now fm first = true) :
    ∀ (sel : List String) (d : NationalGridCoordinatorData),
      (∀ a ∈ sel, okOrConn c a today now fm first = true) →
      (loopData (fetch_loop c today now fm first sel d).2).accounts x = d.accounts x
      ∧ (loopData (fetch_loop c today now fm first sel d).2).usages x = d.usages x
      ∧ (loopData (fetch_loop c today now fm first sel d).2).costs x = d.costs x := by
  intro sel
  induction sel with
  | nil => intro d _; exact ⟨rfl, rfl, rfl⟩
  | cons a rest ih =>
    intro d hall
    have ha := hall a (List.mem_cons_self a rest)
    have hrest := fun b hb => hall b (List.mem_cons_of_mem a hb)
    rcases hfa : fetch_account_data c a today now fm first with ⟨tr, r⟩
    rcases r with e | ws
    · have hce : connectivityErr e = true := by
        simp only [okOrConn, hfa] at ha
        exact ha
      obtain ⟨hne, hcat⟩ := connectivity_props e hce
      simp only [fetch_loop, hfa]
      simp only [if_neg hne, if_pos (hcat c.hier)]
      exact ih d hrest
    · have hax : a ≠ x := by
        intro hax
        subst hax
        simp only [connFails, hfa] at hx
        exact Bool.noConfusion hx
      have hkeys : ∀ w ∈ ws, ∀ k, SnapWrite.accountKey w = some k → k ≠ x := by
        intro w hw k hk
        rw [fetch_account_data_keys c a today now fm first ws (by rw [hfa]) w hw k hk]
        exact hax
      have hpres := applyWrites_preserve x ws d hkeys
      have hrec := ih (applyWrites d ws) hrest
      simp only [fetch_loop, hfa]
      exact ⟨hrec.1.trans hpres.1, hrec.2.1.trans hpres.2.1,
        hrec.2.2.trans hpres.2.2⟩

theorem fetch_loop_filter (c : Ctx) (today : Date) (now : Int) (fm : Int)
    (first : Bool) (x : String)
    (hx : connFails c x today now fm first = true) :
    ∀ (sel : List String) (d : NationalGridCoordinatorData),
      (∀ a ∈ sel, okOrConn c a today now fm first = true) →
      (fetch_loop c today now fm first sel d).2
        = (fetch_loop c today now fm first
            (sel.filter (fun b => !(b == x))) d).2 := by
  intro sel
  induction sel with
  | nil => intro d _; rfl
  | cons a rest ih =>
    intro d hall
    have ha := hall a (List.mem_cons_self a rest)
    have hrest := fun b hb => hall b (List.mem_cons_of_mem a hb)
    by_cases hax : a = x
    · have heq : (a == x) = true := beq_iff_eq.mpr hax
      have hfil : (a :: rest).filter (fun b => !(b == x))
          = rest.filter (fun b => !(b == x)) := by
        simp [List.filter_cons, heq]
      rw [hfil]
      rcases hfa : fetch_account_data c a today now fm first with ⟨tr, r⟩
      rcases r with e | ws
      · have hce : connectivityErr e = true := by
          simp only [okOrConn, hfa] at ha
          exact ha
        obtain ⟨hne, hcat⟩ := connectivity_props e hce
        simp only [fetch_loop, hfa]
        simp only [if_neg hne, if_pos (hcat c.hier)]
        exact ih d hrest
      · exfalso
        rw [hax] at hfa
        simp only [connFails, hfa] at hx
        exact Bool.noConfusion hx
    · have heq : (a == x) = false := beq_eq_false_iff_ne.mpr hax
      have hfil : (a :: rest).filter (fun b => !(b == x))
          = a :: rest.filter (fun b => !(b == x)) := by
        simp [List.filter_cons, heq]
      rw [hfil]
      rcases hfa : fetch_account_data c a today now fm first with ⟨tr, r⟩
      rcases r with e | ws
      · have hce : connectivityErr e = true := by
          simp only [okOrConn, hfa] at ha
          exact ha
        obtain ⟨hne, hcat⟩ := connectivity_props e hce
        simp only [fetch_loop, hfa]
        simp only [if_neg hne, if_pos (hcat c.hier)]
        exact ih d hrest
      · simp only [fetch_loop, hfa]
        exact ih (applyWrites d ws) hrest

theorem fetch_all_data_snd (c : Ctx) (today : Date) (now : Int)
    (sel : List String) (prev : Option NationalGridCoordinatorData)
    (first : Bool) :
    (fetch_all_data c today now sel prev first).2
      = (match (fetch_loop c today now (from_month_of today first) first sel
            { seed_from_previous prev with is_first_refresh := first }).2 with
        | Except.ok d => Except.ok (d, false)
        | Except.error e => Except.error e) := by
  simp only [fetch_all_data]
  rcases h : fetch_loop c today now (from_month_of today first) first sel
      { seed_from_previous prev with is_first_refresh := first } with ⟨tr, r⟩
  rcases r with e | d <;> simp [h]

theorem fetch_all_data_fst (c : Ctx) (today : Date) (now : Int)
    (sel : List String) (prev : Option NationalGridCoordinatorData)
    (first : Bool) :
    (fetch_all_data c today now sel prev first).1
      = (fetch_loop c today now (from_month_of today first) first sel
          { seed_from_previous prev with is_first_refresh := first }).1 := by
  simp only [fetch_all_data]
  rcases h : fetch_loop c today now (from_month_of today first) first sel
      { seed_from_previous prev with is_first_refresh := first } with ⟨tr, r⟩
  rcases r with e | d <;> simp [h]

/-! ## Claim theorems: coordinator -/

/-- C1: when every selected account either succeeds or fails with a
connectivity-class error and account `x`'s fetch fails with such an error, the
cycle returns normally (no raise), the snapshot — which is seeded from a
shallow copy of the previous snapshot — still holds `x`'s previous
account-keyed data (accounts, usages, costs), and the resulting snapshot is
exactly the one obtained by running the cycle without `x` in the selected
list, so no other account's entries are affected. -/
theorem c1_per_account_error_isolation (c : Ctx) (today : Date) (now : Int)
    (selected : List String) (prev : NationalGridCoordinatorData) (first : Bool)
    (x : String)
    (hall : ∀ a ∈ selected,
      okOrConn c a today now (from_month_of today first) first = true)
    (hx : x ∈ selected)
    (hxf : connFails c x today now (from_month_of today first) first = true) :
    updOk (fetch_all_data c today now selected (some prev) first).2 = true
    ∧ (updData (fetch_all_data c today now selected (some prev) first).2).accounts x
        = prev.accounts x
    ∧ (updData (fetch_all_data c today now selected (some prev) first).2).usages x
        = prev.usages x
    ∧ (updData (fetch_all_data c today now selected (some prev) first).2).costs x
        = prev.costs x
    ∧ updData (fetch_all_data c today now selected (some prev) first).2
        = updData (fetch_all_data c today now
            (selected.filter (fun b => !(b == x))) (some prev) first).2 := by
  have hok := fetch_loop_ok c today now (from_month_of today first) first
    selected { seed_from_previous (some prev) with is_first_refresh := first } hall
  have hpres := fetch_loop_preserve c today now (from_month_of today first) first
    x hxf selected
    { seed_from_previous (some prev) with is_first_refresh := first } hall
  have hfil := fetch_loop_filter c today now (from_month_of today first) first
    x hxf selected
    { seed_from_previous (some prev) with is_first_refresh := first } hall
  rcases hlr : (fetch_loop c today now (from_month_of today first) first selected
      { seed_from_previous (some prev) with is_first_refresh := first }).2
    with e | dfin
  · rw [hlr] at hok
    exact absurd hok (by simp [loopOk])
  · rw [hlr] at hpres hfil
    refine ⟨?_, ?_, ?_, ?_, ?_⟩
    · rw [fetch_all_data_snd, hlr]
      rfl
    · rw [fetch_all_data_snd, hlr]
      exact hpres.1
    · rw [fetch_all_data_snd, hlr]
      exact hpres.2.1
    · rw [fetch_all_data_snd, hlr]
      exact hpres.2.2
    · rw [fetch_all_data_snd, hlr, fetch_all_data_snd, ← hfil]

/-- Witness for C1: account `B`'s billing call raises `CannotConnectError`
while account `A` succeeds; the cycle returns normally and `B`'s stale
previous data is still in the snapshot. -/
theorem c1_witness :
    updOk (fetch_all_data ⟨envBFails, ⟨true⟩⟩ ⟨2026, 1, 15⟩ 0 ["A", "B"]
        (some c1Prev) false).2 = true
    ∧ (updData (fetch_all_data ⟨envBFails, ⟨true⟩⟩ ⟨2026, 1, 15⟩ 0 ["A", "B"]
        (some c1Prev) false).2).accounts "B" = c1Prev.accounts "B"
    ∧ (updData (fetch_all_data ⟨envBFails, ⟨true⟩⟩ ⟨2026, 1, 15⟩ 0 ["A", "B"]
        (some c1Prev) false).2).usages "B" = c1Prev.usages "B" := by
  have h := c1_per_account_error_isolation ⟨envBFails, ⟨true⟩⟩ ⟨2026, 1, 15⟩ 0
    ["A", "B"] c1Prev false "B" (by decide) (by decide) (by decide)
  exact ⟨h.1, h.2.1, h.2.2.1⟩

theorem fetch_loop_auth (c : Ctx) (today : Date) (now : Int) (fm : Int)
    (first : Bool) :
    ∀ (sel : List String) (d : NationalGridCoordinatorData),
      (∀ a ∈ sel, okConnOrAuth c a today now fm first = true) →
      sel.any (fun a => authFails c a today now fm first) = true →
      (fetch_loop c today now fm first sel d).2
        = Except.error ApiError.invalidAuth := by
  intro sel
  induction sel with
  | nil =>
    intro d _ hany
    exact absurd hany (by simp)
  | cons a rest ih =>
    intro d hall hany
    have ha := hall a (List.mem_cons_self a rest)
    have hrest := fun b hb => hall b (List.mem_cons_of_mem a hb)
    rcases hfa : fetch_account_data c a today now fm first with ⟨tr, r⟩
    rcases r with e | ws
    · by_cases he : e = ApiError.invalidAuth
      · subst he
        simp only [fetch_loop, hfa]
        simp
      · have hce : connectivityErr e = true := by
          simp only [okConnOrAuth, hfa] at ha
          rw [decide_eq_false he, Bool.or_false] at ha
          exact ha
        obtain ⟨hne, hcat⟩ := connectivity_props e hce
        have hauthf : authFails c a today now fm first = false := by
          simp only [authFails, hfa]
          cases e with
          | invalidAuth => exact absurd rfl he
          | cannotConnect => rfl
          | retryExhausted => rfl
          | natGridOther => rfl
          | valueError => rfl
        have hany2 : rest.any (fun b => authFails c b today now fm first) = true := by
          simp only [List.any_cons, hauthf, Bool.false_or] at hany
          exact hany
        simp only [fetch_loop, hfa]
        simp only [if_neg hne, if_pos (hcat c.hier)]
        exact ih d hrest hany2
    · have hauthf : authFails c a today now fm first = false := by
        simp only [authFails, hfa]
      have hany2 : rest.any (fun b => authFails c b today now fm first) = true := by
        simp only [List.any_cons, hauthf, Bool.false_or] at hany
        exact hany
      simp only [fetch_loop, hfa]
      exact ih (applyWrites d ws) hrest hany2

/-- C2 (amended): whenever `InvalidAuthError` escapes some account's
`_fetch_account_data` — in particular whenever `get_billing_account` raises
it, for any exception hierarchy — and every other selected account either
succeeds or fails with a caught error, `_async_update_data` raises
`ConfigEntryAuthFailed`; but an `InvalidAuthError` raised inside the
usage/cost/AMI/interval helpers is caught by their generic
`NationalGridError` handlers and degrades the category instead, whenever
`InvalidAuthError` is a subclass of `NationalGridError` (see
`c2_counterexample`). -/
theorem c2_auth_error_propagation (c : Ctx) (today : Date) (now : Int)
    (selected : List String) (prev : Option NationalGridCoordinatorData)
    (first : Bool)
    (hall : ∀ a ∈ selected,
      okConnOrAuth c a today now (from_month_of today first) first = true)
    (hauth : selected.any
      (fun a => authFails c a today now (from_month_of today first) first) = true) :
    (async_update_data c today now selected prev first).1
      = UpdateOutcome.configEntryAuthFailed := by
  have hloop := fetch_loop_auth c today now (from_month_of today first) first
    selected { seed_from_previous prev with is_first_refresh := first } hall hauth
  simp only [async_update_data, fetch_all_data_snd, hloop]

/-- Counterexample for C2 as stated: with `InvalidAuthError` a subclass of
`NationalGridError`, an `InvalidAuthError` raised by `get_energy_usages`
during the cycle is caught by `_fetch_usages`' generic handler: the update
succeeds (so it does not raise `ConfigEntryAuthFailed`) and the account's
usage category is silently degraded to the empty list. -/
theorem c2_counterexample :
    (Ctx.mk envUsagesAuth ⟨true⟩).env.get_energy_usages "A1"
        (from_month_of ⟨2026, 1, 15⟩ false) = Except.error ApiError.invalidAuth
    ∧ UpdateOutcome.isOk
        (async_update_data ⟨envUsagesAuth, ⟨true⟩⟩ ⟨2026, 1, 15⟩ 0 ["A1"]
          none false).1 = true
    ∧ UpdateOutcome.isOk UpdateOutcome.configEntryAuthFailed = false
    ∧ (updData (fetch_all_data ⟨envUsagesAuth, ⟨true⟩⟩ ⟨2026, 1, 15⟩ 0 ["A1"]
        none false).2).usages "A1" = some [] := by
  refine ⟨rfl, by decide, rfl, by decide⟩

/-- Witness for C2 (amended): `get_billing_account` raising
`InvalidAuthError` yields `ConfigEntryAuthFailed`, under either hierarchy. -/
theorem c2_witness :
    (async_update_data ⟨envBillingAuth, ⟨true⟩⟩ ⟨2026, 1, 15⟩ 0 ["A1"]
        none false).1 = UpdateOutcome.configEntryAuthFailed
    ∧ (async_update_data ⟨envBillingAuth, ⟨false⟩⟩ ⟨2026, 1, 15⟩ 0 ["A1"]
        none false).1 = UpdateOutcome.configEntryAuthFailed := by
  constructor
  · exact c2_auth_error_propagation ⟨envBillingAuth, ⟨true⟩⟩ ⟨2026, 1, 15⟩ 0
      ["A1"] none false (by decide) (by decide)
  · exact c2_auth_error_propagation ⟨envBillingAuth, ⟨false⟩⟩ ⟨2026, 1, 15⟩ 0
      ["A1"] none false (by decide) (by decide)

theorem fetch_all_ok_flag (c : Ctx) (today : Date) (now : Int)
    (sel : List String) (prev : Option NationalGridCoordinatorData)
    (first : Bool) (d : NationalGridCoordinatorData) (f : Bool)
    (h : (fetch_all_data c today now sel prev first).2 = Except.ok (d, f)) :
    f = false := by
  rw [fetch_all_data_snd] at h
  rcases hlr : (fetch_loop c today now (from_month_of today first) first sel
      { seed_from_previous prev with is_first_refresh := first }).2 with e | d'
  · simp only [hlr] at h
    exact Except.noConfusion h
  · simp only [hlr] at h
    have hp := (Except.ok.injEq _ _).mp h
    exact (congrArg Prod.snd hp).symm

theorem async_cases (c : Ctx) (today : Date) (now : Int) (sel : List String)
    (prev : Option NationalGridCoordinatorData) (fi : Bool) :
    (UpdateOutcome.isOk (async_update_data c today now sel prev fi).1 = true
      ∧ (async_update_data c today now sel prev fi).2 = false)
    ∨ (UpdateOutcome.isOk (async_update_data c today now sel prev fi).1 = false
      ∧ (async_update_data c today now sel prev fi).2 = fi) := by
  rcases h : (fetch_all_data c today now sel prev fi).2 with e | ⟨d, f⟩
  · cases e <;> simp [async_update_data, h, UpdateOutcome.isOk]
  · have hf : f = false := fetch_all_ok_flag c today now sel prev fi d f h
    subst hf
    exact Or.inl (by simp [async_update_data, h, UpdateOutcome.isOk])

theorem coordUpdate_cases (c : Ctx) (today : Date) (now : Int)
    (sel : List String) (s : CoordState) :
    (UpdateOutcome.isOk (coordUpdate c today now sel s).2 = true
      ∧ (coordUpdate c today now sel s).1.is_first_refresh = false)
    ∨ (UpdateOutcome.isOk (coordUpdate c today now sel s).2 = false
      ∧ (coordUpdate c today now sel s).1.is_first_refresh
          = s.is_first_refresh) := by
  rcases hau : async_update_data c today now sel s.data s.is_first_refresh
    with ⟨out, f⟩
  rcases async_cases c today now sel s.data s.is_first_refresh
    with ⟨hok, hf⟩ | ⟨hnok, hf⟩
  · rw [hau] at hok hf
    cases out with
    | ok d =>
      refine Or.inl ⟨?_, ?_⟩
      · simp only [coordUpdate, hau]
        rfl
      · simp only [coordUpdate, hau]
        exact hf
    | configEntryAuthFailed => exact absurd hok (by simp [UpdateOutcome.isOk])
    | updateFailed => exact absurd hok (by simp [UpdateOutcome.isOk])
    | unhandled e => exact absurd hok (by simp [UpdateOutcome.isOk])
  · rw [hau] at hnok hf
    cases out with
    | ok d => exact absurd hnok (by simp [UpdateOutcome.isOk])
    | configEntryAuthFailed =>
      refine Or.inr ⟨?_, ?_⟩
      · simp only [coordUpdate, hau]
        rfl
      · simp only [coordUpdate, hau]
        exact hf
    | updateFailed =>
      refine Or.inr ⟨?_, ?_⟩
      · simp only [coordUpdate, hau]
        rfl
      · simp only [coordUpdate, hau]
        exact hf
    | unhandled e =>
      refine Or.inr ⟨?_, ?_⟩
      · simp only [coordUpdate, hau]
        rfl
      · simp only [coordUpdate, hau]
        exact hf

/-- C8: the first-refresh flag starts `true`, is set to `false` by every
successful update cycle, is left unchanged by a failed cycle, is never set
back to `true` by an update, and only `reset_to_first_refresh` sets it back
to `true`. -/
theorem c8_first_refresh_flag :
    coordInit.is_first_refresh = true
    ∧ (∀ (c : Ctx) (today : Date) (now : Int) (sel : List String)
        (s : CoordState) (d : NationalGridCoordinatorData),
        (coordUpdate c today now sel s).2 = UpdateOutcome.ok d →
        (coordUpdate c today now sel s).1.is_first_refresh = false)
    ∧ (∀ (c : Ctx) (today : Date) (now : Int) (sel : List String)
        (s : CoordState),
        UpdateOutcome.isOk (coordUpdate c today now sel s).2 = false →
        (coordUpdate c today now sel s).1.is_first_refresh
          = s.is_first_refresh)
    ∧ (∀ (c : Ctx) (today : Date) (now : Int) (sel : List String)
        (s : CoordState), s.is_first_refresh = false →
        (coordUpdate c today now sel s).1.is_first_refresh = false)
    ∧ (∀ s : CoordState, (reset_to_first_refresh s).is_first_refresh = true) := by
  refine ⟨rfl, ?_, ?_, ?_, fun s => rfl⟩
  · intro c today now sel s d h
    rcases coordUpdate_cases c today now sel s with ⟨_, hfl⟩ | ⟨hnok, _⟩
    · exact hfl
    · rw [h] at hnok
      exact absurd hnok (by simp [UpdateOutcome.isOk])
  · intro c today now sel s hnok
    rcases coordUpdate_cases c today now sel s with ⟨hok, _⟩ | ⟨_, hfl⟩
    · rw [hok] at hnok
      exact Bool.noConfusion hnok
    · exact hfl
  · intro c today now sel s hs
    rcases coordUpdate_cases c today now sel s with ⟨_, hfl⟩ | ⟨_, hfl⟩
    · exact hfl
    · exact hfl.trans hs

/-- Witness for C8: a successful first cycle clears the flag; a failed
(auth-error) cycle leaves it unchanged. -/
theorem c8_witness :
    (coordUpdate ⟨envAllOk, ⟨true⟩⟩ ⟨2026, 1, 15⟩ 0 ["A1"]
        ⟨true, none⟩).1.is_first_refresh = false
    ∧ (coordUpdate ⟨envBillingAuth, ⟨true⟩⟩ ⟨2026, 1, 15⟩ 0 ["A1"]
        ⟨true, none⟩).1.is_first_refresh
      = (CoordState.mk true none).is_first_refresh := by
  constructor
  · exact c8_first_refresh_flag.2.1 ⟨envAllOk, ⟨true⟩⟩ ⟨2026, 1, 15⟩ 0 ["A1"]
      ⟨true, none⟩
      (updData (fetch_all_data ⟨envAllOk, ⟨true⟩⟩ ⟨2026, 1, 15⟩ 0 ["A1"]
        none true).2) rfl
  · exact c8_first_refresh_flag.2.2.1 ⟨envBillingAuth, ⟨true⟩⟩ ⟨2026, 1, 15⟩ 0
      ["A1"] ⟨true, none⟩ (by decide)

theorem ami_meter_tail_sps (c : Ctx) (premise_number : String) (now : Int)
    (first : Bool) (m : Meter)
    (mn pn spn mpn : String) (df dt : Date) (wA : List SnapWrite)
    (restRes : List ApiReq × Except ApiError (List SnapWrite)) (S : List String)
    (hwa : ∀ w ∈ wA, ∀ sp rs, w ≠ SnapWrite.interval sp rs)
    (htr : intervalReqSps restRes.1 = S)
    (hws : ∀ ws, restRes.2 = Except.ok ws → ∀ w ∈ ws, ∀ sp rs,
      w = SnapWrite.interval sp rs → sp ∈ S)
    (hint : ∀ st e, c.env.get_interval_reads premise_number
      m.servicePointNumber st = Except.error e → natTupleCatches c.hier e = true) :
    intervalReqSps (ami_meter_tail c premise_number now first m
        (ApiReq.ami mn pn spn mpn df dt) wA restRes).1
      = (if m.fuelType = "Gas" then S else m.servicePointNumber :: S)
    ∧ (∀ ws, (ami_meter_tail c premise_number now first m
        (ApiReq.ami mn pn spn mpn df dt) wA restRes).2 = Except.ok ws →
      ∀ w ∈ ws, ∀ sp rs, w = SnapWrite.interval sp rs →
        sp ∈ (if m.fuelType = "Gas" then S else m.servicePointNumber :: S)) := by
  simp only [ami_meter_tail]
  by_cases hg : m.fuelType = "Gas"
  · rw [if_pos hg, if_pos hg]
    constructor
    · simp only [intervalReqSps, List.filterMap_cons]
      rw [← htr]
      rfl
    · intro ws hok w hw sp rs hwi
      rcases except_map_ok _ _ _ hok with ⟨ws', hrr, hf⟩
      subst hf
      rcases List.mem_append.mp hw with h | h
      · exact absurd hwi (hwa w h sp rs)
      · exact hws ws' hrr w h sp rs hwi
  · rw [if_neg hg, if_neg hg]
    rcases hir : c.env.get_interval_reads premise_number m.servicePointNumber
        (if first = true then now - 157680000 else now - 86400) with e | rds
    · simp only [hir]
      rw [if_pos (hint _ e hir)]
      constructor
      · simp only [intervalReqSps, List.filterMap_cons]
        rw [← htr]
        rfl
      · intro ws hok w hw sp rs hwi
        rcases except_map_ok _ _ _ hok with ⟨ws', hrr, hf⟩
        subst hf
        rcases List.mem_append.mp hw with h | h
        · exact absurd hwi (hwa w h sp rs)
        · exact List.mem_cons_of_mem _ (hws ws' hrr w h sp rs hwi)
    · simp only [hir]
      constructor
      · simp only [intervalReqSps, List.filterMap_cons]
        rw [← htr]
        rfl
      · intro ws hok w hw sp rs hwi
        rcases except_map_ok _ _ _ hok with ⟨ws', hrr, hf⟩
        subst hf
        rcases List.mem_append.mp hw with h | h
        · exact absurd hwi (hwa w h sp rs)
        · rcases List.mem_cons.mp h with h' | h'
          · rw [h'] at hwi
            have := (SnapWrite.interval.injEq _ _ _ _).mp hwi.symm
            rw [← this.1]
            exact List.mem_cons_self _ _
          · exact List.mem_cons_of_mem _ (hws ws' hrr w h' sp rs hwi)

/-- C9 (amended): in a cycle where every AMI and interval API error is of the
caught (connectivity) class, `_fetch_ami_data` requests interval reads for
exactly the AMI-capable meters with a nonempty service point whose fuel type
is not `Gas` — in particular never for a meter marked `Gas`, and not for an
electric meter without an AMI smart meter — and every interval-read entry it
stores is keyed by the service point of such a meter. -/
theorem c9_interval_reads_for_ami_electric (c : Ctx) (premise_number : String)
    (today : Date) (now : Int) (first : Bool)
    (hami : ∀ mn pn spn mpn df dt e,
      c.env.get_ami_energy_usages mn pn spn mpn df dt = Except.error e →
      natTupleCatches c.hier e = true)
    (hint : ∀ pn spn st e,
      c.env.get_interval_reads pn spn st = Except.error e →
      natTupleCatches c.hier e = true) :
    ∀ meters : List Meter,
      intervalReqSps (fetch_ami_data c premise_number today now first meters).1
        = amiNonGasSps meters
      ∧ (∀ ws, (fetch_ami_data c premise_number today now first meters).2
            = Except.ok ws →
          ∀ w ∈ ws, ∀ sp rs, w = SnapWrite.interval sp rs →
            sp ∈ amiNonGasSps meters) := by
  intro meters
  induction meters with
  | nil =>
    refine ⟨rfl, ?_⟩
    intro ws hok w hw sp rs _
    simp only [fetch_ami_data] at hok
    rw [← (Except.ok.injEq _ _).mp hok] at hw
    exact absurd hw (List.not_mem_nil w)
  | cons m rest ih =>
    simp only [fetch_ami_data]
    by_cases h1 : m.hasAmiSmartMeter = false
    · rw [if_pos h1]
      have hskip : amiNonGasSps (m :: rest) = amiNonGasSps rest := by
        simp [amiNonGasSps, List.filterMap_cons, h1]
      rw [hskip]
      exact ih
    · rw [if_neg h1]
      have h1t : m.hasAmiSmartMeter = true := by
        cases hm : m.hasAmiSmartMeter
        · exact absurd hm h1
        · rfl
      by_cases h2 : m.servicePointNumber = ""
      · rw [if_pos h2]
        have hskip : amiNonGasSps (m :: rest) = amiNonGasSps rest := by
          simp [amiNonGasSps, List.filterMap_cons, h1t, h2]
        rw [hskip]
        exact ih
      · rw [if_neg h2]
        have hcons : amiNonGasSps (m :: rest)
            = if m.fuelType = "Gas" then amiNonGasSps rest
              else m.servicePointNumber :: amiNonGasSps rest := by
          by_cases hg : m.fuelType = "Gas"
          · rw [if_pos hg]
            simp [amiNonGasSps, List.filterMap_cons, h1t, h2, hg]
          · rw [if_neg hg]
            simp [amiNonGasSps, List.filterMap_cons, h1t, h2, hg]
        rw [hcons]
        rcases ha : c.env.get_ami_energy_usages m.meterNumber premise_number
            m.servicePointNumber m.meterPointNumber
            (if first = true then dateSubDays today 1825 else dateSubDays today 2)
            (if first = true then dateSubDays today 3 else today) with e | amiData
        · simp only [ha]
          rw [if_pos (hami _ _ _ _ _ _ e ha)]
          exact ami_meter_tail_sps c premise_number now first m _ _ _ _ _ _ []
            _ (amiNonGasSps rest)
            (fun w hw sp rs => absurd hw (List.not_mem_nil w))
            ih.1 ih.2 (fun st e' h' => hint _ _ st e' h')
        · simp only [ha]
          exact ami_meter_tail_sps c premise_number now first m _ _ _ _ _ _
            [SnapWrite.ami m.servicePointNumber amiData]
            _ (amiNonGasSps rest)
            (fun w hw sp rs => by
              simp only [List.mem_singleton] at hw
              subst hw
              exact fun hc => SnapWrite.noConfusion hc)
            ih.1 ih.2 (fun st e' h' => hint _ _ st e' h')

/-- Counterexample to C9 as stated: an electric meter without an AMI smart
meter gets no interval-read request, so the set of service points with
interval requests is not the set of electric-meter service points. -/
theorem c9_counterexample :
    electricSps [⟨"SP1", "M1", "MP1", "Electric", false⟩] = ["SP1"]
    ∧ intervalReqSps (fetch_ami_data ⟨envAllOk, ⟨true⟩⟩ "P1" ⟨2026, 1, 15⟩ 0
        false [⟨"SP1", "M1", "MP1", "Electric", false⟩]).1 = [] := by
  exact ⟨rfl, rfl⟩

/-- Witness for C9 (amended): with an all-successful client, the interval
requests of a mixed meter list (an AMI electric meter, a non-AMI electric
meter and an AMI gas meter) are issued for exactly the AMI non-gas meter. -/
theorem c9_witness :
    intervalReqSps (fetch_ami_data ⟨envAllOk, ⟨true⟩⟩ "P1" ⟨2026, 1, 15⟩ 0 false
        [⟨"SP1", "M1", "MP1", "Electric", true⟩,
         ⟨"SP2", "M2", "MP2", "Electric", false⟩,
         ⟨"SP3", "M3", "MP3", "Gas", true⟩]).1
      = amiNonGasSps
        [⟨"SP1", "M1", "MP1", "Electric", true⟩,
         ⟨"SP2", "M2", "MP2", "Electric", false⟩,
         ⟨"SP3", "M3", "MP3", "Gas", true⟩] :=
  (c9_interval_reads_for_ami_electric ⟨envAllOk, ⟨true⟩⟩ "P1" ⟨2026, 1, 15⟩ 0
    false
    (fun _ _ _ _ _ _ _ h => Except.noConfusion h)
    (fun _ _ _ _ h => Except.noConfusion h)
    [⟨"SP1", "M1", "MP1", "Electric", true⟩,
     ⟨"SP2", "M2", "MP2", "Electric", false⟩,
     ⟨"SP3", "M3", "MP3", "Gas", true⟩]).1

theorem ami_meter_tail_reqs (P : ApiReq → Prop) (c : Ctx)
    (premise_number : String) (now : Int) (first : Bool) (m : Meter)
    (reqA : ApiReq) (wA : List SnapWrite)
    (restRes : List ApiReq × Except ApiError (List SnapWrite))
    (hA : P reqA)
    (hI : P (ApiReq.interval premise_number m.servicePointNumber
        (if first = true then now - 157680000 else now - 86400)))
    (hrest : ∀ req ∈ restRes.1, P req) :
    ∀ req ∈ (ami_meter_tail c premise_number now first m reqA wA restRes).1,
      P req := by
  intro req hreq
  simp only [ami_meter_tail] at hreq
  by_cases hg : m.fuelType = "Gas"
  · rw [if_pos hg] at hreq
    rcases List.mem_cons.mp hreq with h | h
    · subst h; exact hA
    · exact hrest req h
  · rw [if_neg hg] at hreq
    rcases hir : c.env.get_interval_reads premise_number m.servicePointNumber
        (if first = true then now - 157680000 else now - 86400) with e | rds
    · simp only [hir] at hreq
      by_cases hc : natTupleCatches c.hier e = true
      · rw [if_pos hc] at hreq
        rcases List.mem_cons.mp hreq with h | h
        · subst h; exact hA
        · rcases List.mem_cons.mp h with h' | h'
          · subst h'; exact hI
          · exact hrest req h'
      · rw [if_neg hc] at hreq
        rcases List.mem_cons.mp hreq with h | h
        · subst h; exact hA
        · simp only [List.mem_singleton] at h
          subst h; exact hI
    · simp only [hir] at hreq
      rcases List.mem_cons.mp hreq with h | h
      · subst h; exact hA
      · rcases List.mem_cons.mp h with h' | h'
        · subst h'; exact hI
        · exact hrest req h'

theorem fetch_ami_data_reqs (P : ApiReq → Prop) (c : Ctx)
    (premise_number : String) (today : Date) (now : Int) (first : Bool)
    (hA : ∀ mn spn mpn, P (ApiReq.ami mn premise_number spn mpn
        (if first = true then dateSubDays today 1825 else dateSubDays today 2)
        (if first = true then dateSubDays today 3 else today)))
    (hI : ∀ spn, P (ApiReq.interval premise_number spn
        (if first = true then now - 157680000 else now - 86400))) :
    ∀ (meters : List Meter),
      ∀ req ∈ (fetch_ami_data c premise_number today now first meters).1,
        P req := by
  intro meters
  induction meters with
  | nil => intro req h; exact absurd h (List.not_mem_nil req)
  | cons m rest ih =>
    intro req hreq
    simp only [fetch_ami_data] at hreq
    by_cases h1 : m.hasAmiSmartMeter = false
    · rw [if_pos h1] at hreq
      exact ih req hreq
    · rw [if_neg h1] at hreq
      by_cases h2 : m.servicePointNumber = ""
      · rw [if_pos h2] at hreq
        exact ih req hreq
      · rw [if_neg h2] at hreq
        rcases ha : c.env.get_ami_energy_usages m.meterNumber premise_number
            m.servicePointNumber m.meterPointNumber
            (if first = true then dateSubDays today 1825 else dateSubDays today 2)
            (if first = true then dateSubDays today 3 else today) with e | amiData
        · simp only [ha] at hreq
          by_cases hc : natTupleCatches c.hier e = true
          · rw [if_pos hc] at hreq
            exact ami_meter_tail_reqs P c premise_number now first m _ [] _
              (hA _ _ _) (hI _) (fun r hr => ih r hr) req hreq
          · rw [if_neg hc] at hreq
            simp only [List.mem_singleton] at hreq
            subst hreq
            exact hA _ _ _
        · simp only [ha] at hreq
          exact ami_meter_tail_reqs P c premise_number now first m _ _ _
            (hA _ _ _) (hI _) (fun r hr => ih r hr) req hreq

theorem fetch_account_data_reqs (P : ApiReq → Prop) (c : Ctx) (a : String)
    (today : Date) (now : Int) (fm : Int) (first : Bool)
    (hB : P (ApiReq.billing a))
    (hU : P (ApiReq.usages a fm))
    (hC : ∀ cc, P (ApiReq.costs a today cc))
    (hA : ∀ pn mn spn mpn, P (ApiReq.ami mn pn spn mpn
        (if first = true then dateSubDays today 1825 else dateSubDays today 2)
        (if first = true then dateSubDays today 3 else today)))
    (hI : ∀ pn spn, P (ApiReq.interval pn spn
        (if first = true then now - 157680000 else now - 86400))) :
    ∀ req ∈ (fetch_account_data c a today now fm first).1, P req := by
  intro req hreq
  simp only [fetch_account_data] at hreq
  rcases hb : c.env.get_billing_account a with e | ba
  · simp only [hb, List.mem_singleton] at hreq
    subst hreq
    exact hB
  · simp only [hb] at hreq
    have hcost : ∀ r ∈ costs_reqs a today ba, P r := by
      intro r hr
      unfold costs_reqs at hr
      by_cases hreg : ba.region = ""
      · rw [if_pos hreg] at hr
        exact absurd hr (List.not_mem_nil r)
      · rw [if_neg hreg] at hr
        simp only [List.mem_singleton] at hr
        subst hr
        exact hC _
    rcases hu : fetch_usages c a fm with e | us
    · simp only [hu] at hreq
      rcases List.mem_cons.mp hreq with h | h
      · subst h; exact hB
      · simp only [List.mem_singleton] at h
        subst h; exact hU
    · simp only [hu] at hreq
      rcases hco : fetch_costs c a today ba with e | cs
      · simp only [hco] at hreq
        rcases List.mem_append.mp hreq with h | h
        · rcases List.mem_cons.mp h with h' | h'
          · subst h'; exact hB
          · simp only [List.mem_singleton] at h'
            subst h'; exact hU
        · exact hcost req h
      · simp only [hco] at hreq
        rcases hk2 : fetch_ami_data c ba.premiseNumber today now first ba.meters
          with ⟨trA, rA⟩
        have hami : ∀ r ∈ trA, P r := by
          intro r hr
          have hmem : r ∈ (fetch_ami_data c ba.premiseNumber today now first
              ba.meters).1 := by
            rw [hk2]
            exact hr
          exact fetch_ami_data_reqs P c ba.premiseNumber today now first
            (hA ba.premiseNumber) (hI ba.premiseNumber) ba.meters r hmem
        rcases rA with e | wsA
        · simp only [hk2] at hreq
          rcases List.mem_append.mp hreq with h | h
          · rcases List.mem_append.mp h with h' | h'
            · rcases List.mem_cons.mp h' with h2 | h2
              · subst h2; exact hB
              · simp only [List.mem_singleton] at h2
                subst h2; exact hU
            · exact hcost req h'
          · exact hami req h
        · simp only [hk2] at hreq
          rcases List.mem_append.mp hreq with h | h
          · rcases List.mem_append.mp h with h' | h'
            · rcases List.mem_cons.mp h' with h2 | h2
              · subst h2; exact hB
              · simp only [List.mem_singleton] at h2
                subst h2; exact hU
            · exact hcost req h'
          · exact hami req h

theorem fetch_loop_reqs (P : ApiReq → Prop) (c : Ctx) (today : Date) (now : Int)
    (fm : Int) (first : Bool)
    (hacc : ∀ a, ∀ req ∈ (fetch_account_data c a today now fm first).1, P req) :
    ∀ (sel : List String) (d : NationalGridCoordinatorData),
      ∀ req ∈ (fetch_loop c today now fm first sel d).1, P req := by
  intro sel
  induction sel with
  | nil => intro d req h; exact absurd h (List.not_mem_nil req)
  | cons a rest ih =>
    intro d req hreq
    rcases hfa : fetch_account_data c a today now fm first with ⟨tr, r⟩
    have htr : ∀ r' ∈ tr, P r' := by
      intro r' hr'
      have hq := hacc a r'
      rw [hfa] at hq
      exact hq hr'
    rcases r with e | ws
    · simp only [fetch_loop, hfa] at hreq
      by_cases he : e = ApiError.invalidAuth
      · rw [if_pos he] at hreq
        exact htr req hreq
      · rw [if_neg he] at hreq
        by_cases hc : natTupleCatches c.hier e = true
        · rw [if_pos hc] at hreq
          rcases List.mem_append.mp hreq with h | h
          · exact htr req h
          · exact ih d req h
        · rw [if_neg hc] at hreq
          exact htr req hreq
    · simp only [fetch_loop, hfa] at hreq
      rcases List.mem_append.mp hreq with h | h
      · exact htr req h
      · exact ih (applyWrites d ws) req h

/-- C7: every usage request of a cycle queries from the month of
`today - 465 days` on a first refresh and from the same month one year
earlier otherwise; every AMI request uses the range
`[today - 1825 days, today - 3 days]` on a first refresh and
`[today - 2 days, today]` otherwise; every interval request starts at
`now - 1825 days` on a first refresh and `now - 24 hours` otherwise. -/
theorem c7_time_window_policy (c : Ctx) (today : Date) (now : Int)
    (selected : List String) (prev : Option NationalGridCoordinatorData)
    (first : Bool) :
    ∀ req ∈ (fetch_all_data c today now selected prev first).1,
      (∀ fm, ApiReq.usagesFromMonth req = some fm →
        fm = if first = true then monthCode (dateSubDays today 465)
             else (today.year - 1) * 100 + today.month)
      ∧ (∀ ft, ApiReq.amiRange req = some ft →
        ft = if first = true then (dateSubDays today 1825, dateSubDays today 3)
             else (dateSubDays today 2, today))
      ∧ (∀ st, ApiReq.intervalStart req = some st →
        st = if first = true then now - 157680000 else now - 86400) := by
  intro req hreq
  rw [fetch_all_data_fst] at hreq
  refine fetch_loop_reqs
    (fun r =>
      (∀ fm, ApiReq.usagesFromMonth r = some fm →
        fm = if first = true then monthCode (dateSubDays today 465)
             else (today.year - 1) * 100 + today.month)
      ∧ (∀ ft, ApiReq.amiRange r = some ft →
        ft = if first = true then (dateSubDays today 1825, dateSubDays today 3)
             else (dateSubDays today 2, today))
      ∧ (∀ st, ApiReq.intervalStart r = some st →
        st = if first = true then now - 157680000 else now - 86400))
    c today now (from_month_of today first) first ?_
    selected _ req hreq
  intro a
  refine fetch_account_data_reqs _ c a today now (from_month_of today first)
    first ?_ ?_ ?_ ?_ ?_
  · exact ⟨fun fm h => Option.noConfusion h, fun ft h => Option.noConfusion h,
      fun st h => Option.noConfusion h⟩
  · refine ⟨fun fm h => ?_, fun ft h => Option.noConfusion h,
      fun st h => Option.noConfusion h⟩
    rw [← (Option.some.injEq _ _).mp h]
    rfl
  · intro cc
    exact ⟨fun fm h => Option.noConfusion h, fun ft h => Option.noConfusion h,
      fun st h => Option.noConfusion h⟩
  · intro pn mn spn mpn
    refine ⟨fun fm h => Option.noConfusion h, fun ft h => ?_,
      fun st h => Option.noConfusion h⟩
    rw [← (Option.some.injEq _ _).mp h]
    cases first <;> rfl
  · intro pn spn
    refine ⟨fun fm h => Option.noConfusion h, fun ft h => Option.noConfusion h,
      fun st h => ?_⟩
    rw [← (Option.some.injEq _ _).mp h]

/-- Witness for C7: the concrete first-refresh and incremental cycles on
2026-01-15 request exactly the claimed windows (computed dates shown). -/
theorem c7_witness :
    ((202410 : Int)
      = if true = true then monthCode (dateSubDays ⟨2026, 1, 15⟩ 465)
        else ((2026 : Int) - 1) * 100 + 1)
    ∧ (((⟨2021, 1, 16⟩ : Date), (⟨2026, 1, 12⟩ : Date))
      = if true = true
        then (dateSubDays ⟨2026, 1, 15⟩ 1825, dateSubDays ⟨2026, 1, 15⟩ 3)
        else (dateSubDays ⟨2026, 1, 15⟩ 2, ⟨2026, 1, 15⟩))
    ∧ ((202501 : Int)
      = if false = true then monthCode (dateSubDays ⟨2026, 1, 15⟩ 465)
        else ((2026 : Int) - 1) * 100 + 1)
    ∧ ((1000000 - 86400 : Int)
      = if false = true then (1000000 : Int) - 157680000 else 1000000 - 86400) := by
  refine ⟨?_, ?_, ?_, ?_⟩
  · exact (c7_time_window_policy ⟨envAllOk, ⟨true⟩⟩ ⟨2026, 1, 15⟩ 1000000 ["A1"]
      none true (ApiReq.usages "A1" 202410) (by decide)).1 202410 rfl
  · exact (c7_time_window_policy ⟨envAllOk, ⟨true⟩⟩ ⟨2026, 1, 15⟩ 1000000 ["A1"]
      none true
      (ApiReq.ami "M1" "P1" "SP1" "MP1" ⟨2021, 1, 16⟩ ⟨2026, 1, 12⟩)
      (by decide)).2.1 (⟨2021, 1, 16⟩, ⟨2026, 1, 12⟩) rfl
  · exact (c7_time_window_policy ⟨envAllOk, ⟨true⟩⟩ ⟨2026, 1, 15⟩ 1000000 ["A1"]
      none false (ApiReq.usages "A1" 202501) (by decide)).1 202501 rfl
  · exact (c7_time_window_policy ⟨envAllOk, ⟨true⟩⟩ ⟨2026, 1, 15⟩ 1000000 ["A1"]
      none false (ApiReq.interval "P1" "SP1" (1000000 - 86400))
      (by decide)).2.2 (1000000 - 86400) rfl

end NationalGrid
